import Mathlib

/-!
# Shield proxy data plane: transport wrapper and rule-match middleware

A shallow embedding of `proxy/roundtripper.go` and
`middleware/rulematch/rulematch.go`, followed by the project service of
`internal/project/project.go` and the error classification of the store in
`store/postgres/projects.go` and `store/postgres/resource.go`.

Go pointers that may be nil are `Option`s, Go `error` values are
`Option GoError` (`none` is the nil error), and the request a method mutates
through its pointer is returned in the outcome.  Calls on external
collaborators (connection pools, hook pipeline, rule matcher, downstream
handler, logger, response writer) are recorded, in order, in a trace of
`Event`s; the collaborators themselves are functions over an abstract
environment state `σ` that is threaded through every call.

The bookkeeping services tell errors apart with `errors.Is`, so their errors
are values of `Err`, which keep the chain of wrapped errors; a store method
ends as a `Run`, which is either a return or the run-time error of a slice
expression out of range.
-/

set_option autoImplicit false

namespace Shield

/-! ## Data model -/

/-- A non-nil Go `error` value, identified by its message. -/
structure GoError where
  msg : String
  deriving DecidableEq, Repr

/-- One octet of a message body. -/
abbrev Byte := Fin 256

/-- The `http.Header` map: key to list of values.  The map is an association
list in which the first binding of a key is the one the map holds. -/
structure Header where
  entries : List (String × List String)
  deriving DecidableEq, Repr

namespace Header

/-- The map index expression `h[key]`, with `none` for a missing key. -/
def lookup (h : Header) (key : String) : Option (List String) :=
  (h.entries.find? (fun kv => kv.1 == key)).map (fun kv => kv.2)

/-- The method `Header.Get` at a key in canonical form: the first value under the key,
and the empty string when the key is missing or holds no value. -/
def Get (h : Header) (key : String) : String :=
  match h.lookup key with
  | some (v :: _) => v
  | _ => ""

/-- The method `Header.Values` at a key in canonical form. -/
def Values (h : Header) (key : String) : List String :=
  (h.lookup key).getD []

/-- The method `Header.Del` at a key in canonical form: `delete(h, key)`. -/
def Del (h : Header) (key : String) : Header :=
  ⟨h.entries.filter (fun kv => !(kv.1 == key))⟩

end Header

/-- The fields of `url.URL` that the proxy reads. -/
structure URL where
  Scheme : String
  Host : String
  Path : String
  deriving DecidableEq, Repr

/-- What a body stream reads from: the connection the request came in on, or
a buffer in memory. -/
inductive BodySource where
  | network
  | buffer
  deriving DecidableEq, Repr

/-- A request body stream: reading it to the end yields `data`, the bytes not
yet read, followed by the read error `fail` when there is one. -/
structure Body where
  data : List Byte
  fail : Option GoError
  source : BodySource
  deriving DecidableEq, Repr

/-- The function `ioutil.ReadAll`: the bytes read and the error that stopped the read. -/
def Body.ReadAll (b : Body) : List Byte × Option GoError :=
  (b.data, b.fail)

/-- The stream once `ioutil.ReadAll` has returned: a stream is read only once,
no byte is left in it. -/
def Body.afterReadAll (b : Body) : Body :=
  { b with data := [] }

/-- The stream `ioutil.NopCloser(bytes.NewBuffer(b))`: a buffer in memory that
holds `b` and never fails. -/
def bytes.NewBuffer (b : List Byte) : Body :=
  { data := b, fail := none, source := BodySource.buffer }

/-- Modelled from the spec: the `structs.Rule` record (section 3), a backend
target, the protocol family it expects and the hooks to run on its responses. -/
structure Rule where
  backend : String
  path : String
  methods : List String
  protocol : String
  hooks : List String
  deriving DecidableEq, Repr

/-- Modelled from the spec: the per-request state keys of section 6, among
them the `CtxRequestErrorKey` of package proxy under which the rewrite stage
records a forwarding error. -/
inductive CtxKey where
  | CtxRequestErrorKey
  | ctxRuleKey
  | ctxBodyKey
  | other (name : String)
  deriving DecidableEq, Repr

/-- A value held in a request context, by dynamic type. -/
inductive CtxValue where
  | error (e : GoError)
  | rule (r : Option Rule)
  | body (b : List Byte)
  | other (v : String)
  deriving DecidableEq, Repr

/-- A `context.Context` as its chain of `WithValue` bindings, newest first. -/
abbrev Context := List (CtxKey × CtxValue)

/-- The method `ctx.Value(key)`: the newest binding of the key, or nil. -/
def Context.Value (ctx : Context) (key : CtxKey) : Option CtxValue :=
  (ctx.find? (fun kv => kv.1 == key)).map (fun kv => kv.2)

/-- The type assertion `v.(error)` with its `ok` flag folded into the option. -/
def assertError : Option CtxValue → Option GoError
  | some (CtxValue.error e) => some e
  | _ => none

/-- The fields of `http.Request` the proxy touches. -/
structure Request where
  Method : String
  URL : URL
  Proto : String
  Header : Header
  Body : Body
  ctx : Context
  deriving DecidableEq, Repr

/-- The method `req.Context()`. -/
def Request.Context (req : Request) : Context := req.ctx

/-- The fields of `http.Response` a hook may change. -/
structure Response where
  StatusCode : Nat
  Header : Header
  Body : List Byte
  deriving DecidableEq, Repr

/-- A `log.Logger` handle. -/
structure Logger where
  name : String
  deriving DecidableEq, Repr

/-- An `http.ResponseWriter` handle. -/
structure ResponseWriter where
  id : Nat
  deriving DecidableEq, Repr

/-- A value passed to the logger as a key/value field. -/
inductive LogValue where
  | str (s : String)
  | url (u : URL)
  | err (e : GoError)
  deriving DecidableEq, Repr

/-- A call on an external collaborator. -/
inductive Event where
  | logDebug (msg : String) (fields : List (String × LogValue))
  | logInfo (msg : String) (fields : List (String × LogValue))
  | httpRoundTrip (req : Request)
  | grpcRoundTrip (req : Request)
  | serveHook (res : Option Response) (err : Option GoError)
  | ruleMatch (req : Request)
  | enrichRule (req : Request) (rule : Option Rule)
  | enrichRequestBody (req : Request)
  | writeHeader (rw : ResponseWriter) (code : Nat)
  | nextServeHTTP (rw : ResponseWriter) (req : Request)
  deriving DecidableEq, Repr

/-- The `(*http.Response, error)` pair of a round trip. -/
abbrev RoundTripResult := Option Response × Option GoError

/-! ## Package proxy -/

/-- Durations of package time, in nanoseconds. -/
def time.Second : Int := 1000000000

/-- One minute, in nanoseconds. -/
def time.Minute : Int := 60 * time.Second

/-- The fields of `net.Dialer` that the constructor sets. -/
structure Dialer where
  Timeout : Int
  KeepAlive : Int
  deriving DecidableEq, Repr

/-- The fields of `tls.Config` that tell two configurations apart. -/
structure TLSConfig where
  ServerName : String
  InsecureSkipVerify : Bool
  deriving DecidableEq, Repr

/-- What a dial function does to open a connection. -/
inductive DialAction where
  | netDial (network addr : String)
  | tlsDial (network addr : String) (cfg : Option TLSConfig)
  deriving DecidableEq, Repr

/-- The fields of `http.Transport` that the constructor sets; `DialContext`
is the method value of the dialer it is bound to. -/
structure HttpTransport where
  DialContext : Dialer
  DisableCompression : Bool
  deriving DecidableEq, Repr

/-- The fields of `http2.Transport` that the constructor sets. -/
structure Http2Transport where
  DialTLS : String → String → Option TLSConfig → DialAction
  AllowHTTP : Bool
  DisableCompression : Bool

/-- The `hook.Service` interface: `ServeHook` over the environment state. -/
structure HookService (σ : Type) where
  ServeHook : Option Response → Option GoError → σ → RoundTripResult × σ

/-- The `RoundTrip` methods of the two pool types: what the network answers
to a request sent through a pool with the given settings. -/
structure Net (σ : Type) where
  httpRoundTrip : HttpTransport → Request → σ → RoundTripResult × σ
  grpcRoundTrip : Http2Transport → Request → σ → RoundTripResult × σ

/-- The transport wrapper: two pools, a logger and the hook service. -/
structure h2cTransportWrapper (σ : Type) where
  httpTransport : HttpTransport
  grpcTransport : Http2Transport
  log : Logger
  hook : HookService σ

/-- What a call of `RoundTrip` leaves behind: the returned pair, the request
as the call left it, the collaborator calls made, and the environment. -/
structure Outcome (σ : Type) where
  res : Option Response
  err : Option GoError
  req : Request
  trace : List Event
  state : σ

/-- The method `h2cTransportWrapper.RoundTrip`. -/
def h2cTransportWrapper.RoundTrip {σ : Type} (net : Net σ) (t : h2cTransportWrapper σ)
    (req : Request) (s : σ) : Outcome σ :=
  match assertError (req.Context.Value CtxKey.CtxRequestErrorKey) with
  | some err => { res := none, err := some err, req := req, trace := [], state := s }
  | none =>
    let dbg := Event.logDebug "proxy request"
      [("host", LogValue.str req.URL.Host), ("path", LogValue.str req.URL.Path),
       ("scheme", LogValue.str req.URL.Scheme), ("protocol", LogValue.str req.Proto)]
    let req1 : Request := { req with Header := req.Header.Del "Accept-Encoding" }
    let grpc : Bool := req1.Header.Get "Content-Type" == "application/grpc"
    let sent : Event := if grpc then Event.grpcRoundTrip req1 else Event.httpRoundTrip req1
    let r := if grpc then net.grpcRoundTrip t.grpcTransport req1 s
             else net.httpRoundTrip t.httpTransport req1 s
    match r.1.2 with
    | some err => { res := r.1.1, err := some err, req := req1, trace := [dbg, sent], state := r.2 }
    | none =>
      let h := t.hook.ServeHook r.1.1 none r.2
      { res := h.1.1, err := h.1.2, req := req1,
        trace := [dbg, sent, Event.serveHook r.1.1 none], state := h.2 }

/-- The constructor `NewH2cRoundTripper`. -/
def NewH2cRoundTripper {σ : Type} (log : Logger) (hook : HookService σ) : h2cTransportWrapper σ :=
  { httpTransport :=
      { DialContext := { Timeout := 10 * time.Second, KeepAlive := 1 * time.Minute },
        DisableCompression := true },
    grpcTransport :=
      { DialTLS := fun network addr _cfg => DialAction.netDial network addr,
        AllowHTTP := true,
        DisableCompression := true },
    log := log,
    hook := hook }

/-! ## Package rulematch -/

/-- The package variable `ErrUnknownRule`. -/
def ErrUnknownRule : GoError := ⟨"undefined proxy rule"⟩

/-- The status code `http.StatusBadRequest`. -/
def http.StatusBadRequest : Nat := 400

/-- The status code `http.StatusInternalServerError`. -/
def http.StatusInternalServerError : Nat := 500

/-- The `structs.RuleMatcher` interface: `Match` returns `(*Rule, error)`. -/
structure RuleMatcher (σ : Type) where
  Match : Request → σ → (Option Rule × Option GoError) × σ

/-- The `http.Handler` interface of the downstream handler. -/
structure Handler (σ : Type) where
  ServeHTTP : ResponseWriter → Request → σ → σ

/-- The two functions of package middleware that `ServeHTTP` calls, each
returning the request as it leaves it behind its pointer. -/
structure Enrichment where
  EnrichRule : Request → Option Rule → Request
  EnrichRequestBody : Request → Request × Option GoError

/-- Modelled from the spec: `middleware.EnrichRule`, absent from the sources,
which stores the match result in per-request state (section 4.1, step 2). -/
def middleware.EnrichRule (req : Request) (rule : Option Rule) : Request :=
  { req with ctx := (CtxKey.ctxRuleKey, CtxValue.rule rule) :: req.ctx }

/-- Modelled from the spec: `middleware.EnrichRequestBody`, absent from the
sources, which reads the full body into per-request state and restores the
stream, and reports a read failure (section 4.1, step 3). -/
def middleware.EnrichRequestBody (req : Request) : Request × Option GoError :=
  let consumed : Request := { req with Body := req.Body.afterReadAll }
  match req.Body.ReadAll with
  | (_, some err) => (consumed, some err)
  | (b, none) =>
    ({ consumed with Body := bytes.NewBuffer b,
                     ctx := (CtxKey.ctxBodyKey, CtxValue.body b) :: consumed.ctx }, none)

/-- Modelled from the spec: the retrieval of the matched rule from per-request
state by later stages (section 4.1, step 2). -/
def middleware.ExtractRule (req : Request) : Option Rule :=
  match req.Context.Value CtxKey.ctxRuleKey with
  | some (CtxValue.rule r) => r
  | _ => none

/-- Modelled from the spec: the retrieval of the buffered body from
per-request state by later stages (section 3, per-request state (b)). -/
def middleware.ExtractRequestBody (req : Request) : Option (List Byte) :=
  match req.Context.Value CtxKey.ctxBodyKey with
  | some (CtxValue.body b) => some b
  | _ => none

/-- Modelled from the spec: package middleware as section 4.1 describes it. -/
def middleware : Enrichment :=
  { EnrichRule := middleware.EnrichRule,
    EnrichRequestBody := middleware.EnrichRequestBody }

/-- The middleware `Ware`. -/
structure Ware (σ : Type) where
  log : Logger
  next : Handler σ
  ruleMatcher : RuleMatcher σ

/-- The constructor `New`. -/
def New {σ : Type} (log : Logger) (next : Handler σ) (matcher : RuleMatcher σ) : Ware σ :=
  { log := log, next := next, ruleMatcher := matcher }

/-- What a call of `ServeHTTP` leaves behind: the request as the call left
it, the collaborator calls made, and the environment. -/
structure ServeOutcome (σ : Type) where
  req : Request
  trace : List Event
  state : σ

/-- The method `Ware.ServeHTTP`, over the package middleware it calls. -/
def Ware.ServeHTTP {σ : Type} (mw : Enrichment) (m : Ware σ) (rw : ResponseWriter)
    (req : Request) (s : σ) : ServeOutcome σ :=
  let mr := m.ruleMatcher.Match req s
  match mr.1.2 with
  | some err =>
    { req := req,
      trace := [Event.ruleMatch req,
                Event.logInfo "middleware: failed to match rule"
                  [("path", LogValue.url req.URL), ("err", LogValue.err err)],
                Event.writeHeader rw http.StatusBadRequest],
      state := mr.2 }
  | none =>
    let req1 := mw.EnrichRule req mr.1.1
    let eb := mw.EnrichRequestBody req1
    match eb.2 with
    | some err =>
      { req := eb.1,
        trace := [Event.ruleMatch req, Event.enrichRule req mr.1.1,
                  Event.enrichRequestBody req1,
                  Event.logInfo "middleware: failed to enrich ctx with request body"
                    [("err", LogValue.err err)],
                  Event.writeHeader rw http.StatusInternalServerError],
        state := mr.2 }
    | none =>
      { req := eb.1,
        trace := [Event.ruleMatch req, Event.enrichRule req mr.1.1,
                  Event.enrichRequestBody req1, Event.nextServeHTTP rw eb.1],
        state := m.next.ServeHTTP rw eb.1 mr.2 }

/-! ## Reading a trace -/

/-- Whether an event is a round trip on either pool. -/
def Event.isPoolCall : Event → Bool
  | Event.httpRoundTrip _ => true
  | Event.grpcRoundTrip _ => true
  | _ => false

/-- Whether an event is a call of the hook pipeline. -/
def Event.isHookCall : Event → Bool
  | Event.serveHook _ _ => true
  | _ => false

/-- Whether an event is a call of package middleware. -/
def Event.isEnrichCall : Event → Bool
  | Event.enrichRule _ _ => true
  | Event.enrichRequestBody _ => true
  | _ => false

/-- Whether an event is a call of the downstream handler. -/
def Event.isNextCall : Event → Bool
  | Event.nextServeHTTP _ _ => true
  | _ => false

/-- The status codes written to a response writer, in order. -/
def statusWrites (rw : ResponseWriter) (tr : List Event) : List Nat :=
  tr.filterMap (fun ev =>
    match ev with
    | Event.writeHeader w code => if w = rw then some code else none
    | _ => none)

/-- The request as `RoundTrip` hands it to a pool (line 39). -/
def Request.outbound (req : Request) : Request :=
  { req with Header := req.Header.Del "Accept-Encoding" }

/-- Lines 46 to 50 of `RoundTrip`, given the pool call made and its result:
the shape every run without a forwarding error has. -/
def afterPool {σ : Type} (t : h2cTransportWrapper σ) (req : Request) (sent : Event)
    (r : RoundTripResult × σ) : Outcome σ :=
  let dbg := Event.logDebug "proxy request"
    [("host", LogValue.str req.URL.Host), ("path", LogValue.str req.URL.Path),
     ("scheme", LogValue.str req.URL.Scheme), ("protocol", LogValue.str req.Proto)]
  match r.1.2 with
  | some err =>
    { res := r.1.1, err := some err, req := req.outbound, trace := [dbg, sent], state := r.2 }
  | none =>
    { res := (t.hook.ServeHook r.1.1 none r.2).1.1, err := (t.hook.ServeHook r.1.1 none r.2).1.2,
      req := req.outbound, trace := [dbg, sent, Event.serveHook r.1.1 none],
      state := (t.hook.ServeHook r.1.1 none r.2).2 }

/-! ## Demonstration inputs -/

/-- A network in which the general pool answers 200 and the cleartext-HTTP/2
pool answers 204; the state counts round trips. -/
def demoNet : Net Nat :=
  { httpRoundTrip := fun _ _ n => ((some ⟨200, ⟨[]⟩, [1]⟩, none), n + 1),
    grpcRoundTrip := fun _ _ n => ((some ⟨204, ⟨[]⟩, [2]⟩, none), n + 1) }

/-- A network in which every dial is refused. -/
def refusingNet : Net Nat :=
  { httpRoundTrip := fun _ _ n => ((none, some ⟨"connection refused"⟩), n + 1),
    grpcRoundTrip := fun _ _ n => ((none, some ⟨"connection refused"⟩), n + 1) }

/-- A hook that stamps a header on the response; the state counts hook runs
in the hundreds. -/
def stampHook : HookService Nat :=
  { ServeHook := fun res err n =>
      ((res.map (fun r => { r with Header := ⟨("X-Hook", ["seen"]) :: r.Header.entries⟩ }), err),
       n + 100) }

/-- A hook that fails. -/
def failingHook : HookService Nat :=
  { ServeHook := fun _ _ n => ((none, some ⟨"hook failed"⟩), n + 100) }

/-- A JSON request carrying two `Accept-Encoding` values. -/
def jsonRequest : Request :=
  { Method := "GET", URL := ⟨"http", "projects-svc:8080", "/projects/42"⟩, Proto := "HTTP/1.1",
    Header := ⟨[("Accept-Encoding", ["gzip", "br"]), ("Content-Type", ["application/json"])]⟩,
    Body := ⟨[], none, BodySource.network⟩, ctx := [] }

/-- A gRPC request. -/
def grpcRequest : Request :=
  { Method := "POST", URL := ⟨"http", "backend:9000", "/pkg.Service/Call"⟩, Proto := "HTTP/2.0",
    Header := ⟨[("Content-Type", ["application/grpc"]), ("Accept-Encoding", ["gzip"])]⟩,
    Body := ⟨[0, 0, 0, 0, 0], none, BodySource.network⟩, ctx := [] }

/-- A request whose content type only starts with the gRPC media type. -/
def grpcProtoRequest : Request :=
  { grpcRequest with Header := ⟨[("Content-Type", ["application/grpc+proto"])]⟩ }

/-- A gRPC request on which the rewrite stage recorded a forwarding error. -/
def unroutableRequest : Request :=
  { grpcRequest with
    ctx := [(CtxKey.ctxRuleKey, CtxValue.rule none),
            (CtxKey.CtxRequestErrorKey, CtxValue.error ⟨"unknown host"⟩)] }

/-- A network whose state is the list of the requests its pools were given,
in order; both pools answer 200. -/
def recordingNet : Net (List Request) :=
  { httpRoundTrip := fun _ r seen => ((some ⟨200, ⟨[]⟩, []⟩, none), seen ++ [r]),
    grpcRoundTrip := fun _ r seen => ((some ⟨200, ⟨[]⟩, []⟩, none), seen ++ [r]) }

/-- A hook that passes everything through, over the state of `recordingNet`. -/
def passHook : HookService (List Request) :=
  { ServeHook := fun res err seen => ((res, err), seen) }

/-- The rule of the projects backend. -/
def projectsRule : Rule :=
  { backend := "projects-svc:8080", path := "/projects/\x7bid\x7d", methods := ["GET", "POST"],
    protocol := "http", hooks := [] }

/-- A matcher that knows no rule; the state counts matcher calls. -/
def unknownRuleMatcher : RuleMatcher Nat :=
  { Match := fun _ n => ((none, some ErrUnknownRule), n + 1) }

/-- A matcher that breaks down. -/
def faultyMatcher : RuleMatcher Nat :=
  { Match := fun _ n => ((none, some ⟨"rule set not loaded"⟩), n + 1) }

/-- A matcher that resolves every request to the projects rule. -/
def projectsMatcher : RuleMatcher Nat :=
  { Match := fun _ n => ((some projectsRule, none), n + 1) }

/-- A downstream handler; the state counts its runs in the thousands. -/
def countingHandler : Handler Nat :=
  { ServeHTTP := fun _ _ n => n + 1000 }

/-- A downstream handler that reads the body of its request and looks up the
buffered copy in per-request state; the state grows by a thousand, by the
number of bytes read, and by ten for each byte of the buffered copy. -/
def readingHandler : Handler Nat :=
  { ServeHTTP := fun _ r n =>
      n + 1000 + r.Body.ReadAll.1.length +
        (match middleware.ExtractRequestBody r with
         | some b => 10 * b.length
         | none => 0) }

/-- A request with a three-byte body. -/
def postRequest : Request :=
  { Method := "POST", URL := ⟨"http", "gateway", "/projects/42"⟩, Proto := "HTTP/1.1",
    Header := ⟨[("Content-Type", ["application/json"])]⟩,
    Body := ⟨[123, 125, 10], none, BodySource.network⟩, ctx := [] }

/-- A request whose body stream breaks after one byte. -/
def brokenBodyRequest : Request :=
  { postRequest with Body := ⟨[123], some ⟨"unexpected EOF"⟩, BodySource.network⟩ }

/-! ## Errors with a chain, strings as bytes, runs that may stop -/

/-- A Go `error` value with its `Unwrap` chain.  A value that wraps nothing
carries an identity next to its message: Go compares error values with `==`,
by identity and not by text, so two values with the same message and
different identities are different errors.  A value made by `fmt.Errorf`
around a `%w` operand keeps that operand. -/
inductive Err where
  | new (ident : String) (msg : String)
  | wrap (msg : String) (inner : Err)
  deriving DecidableEq, Repr

/-- The method `Error()`. -/
def Err.Error : Err → String
  | Err.new _ msg => msg
  | Err.wrap msg _ => msg

/-- The function `errors.Is` on a non-nil error: the error or one in its chain
is the target.  Every target in the sources is a package variable that wraps
nothing, which is compared by its identity; a wrapping value is compared by
content. -/
def Err.Is : Err → Err → Bool
  | Err.new ident msg, target => decide (Err.new ident msg = target)
  | Err.wrap msg inner, target => decide (Err.wrap msg inner = target) || Err.Is inner target

/-- The function `errors.Is`; a nil error is no target. -/
def errors.Is (err : Option Err) (target : Err) : Bool :=
  match err with
  | none => false
  | some e => e.Is target

/-- The call `fmt.Errorf("%w: %s", a, b)`. -/
def fmt.Errorf_w_s (a b : Err) : Err :=
  Err.wrap (a.Error ++ ": " ++ b.Error) a

/-- The call `fmt.Errorf("%s: %w", a, b)`. -/
def fmt.Errorf_s_w (a b : Err) : Err :=
  Err.wrap (a.Error ++ ": " ++ b.Error) b

/-- The variable `sql.ErrNoRows`. -/
def sql.ErrNoRows : Err := Err.new "sql.ErrNoRows" "sql: no rows in result set"

/-- The UTF-8 encoding of a character, as byte values. -/
def utf8Bytes (c : Char) : List Nat :=
  let n := c.toNat
  if n < 128 then [n]
  else if n < 2048 then [192 + n / 64, 128 + n % 64]
  else if n < 65536 then [224 + n / 4096, 128 + n / 64 % 64, 128 + n % 64]
  else [240 + n / 262144, 128 + n / 4096 % 64, 128 + n / 64 % 64, 128 + n % 64]

/-- A Go string, which is its bytes. -/
def goBytes (s : String) : List Nat :=
  s.data.foldr (fun c acc => utf8Bytes c ++ acc) []

/-- How a Go function call ends: it returns, or it stops on the run-time error
`slice bounds out of range [:high] with length`. -/
inductive Run (α : Type) where
  | returned (value : α)
  | sliceOutOfRange (high length : Nat)
  deriving DecidableEq, Repr

/-- The slice expression `s[0:high]` on a string. -/
def sliceTo (s : List Nat) (high : Nat) : Run (List Nat) :=
  if high ≤ s.length then Run.returned (s.take high) else Run.sliceOutOfRange high s.length

/-! ## Package model -/

/-- Modelled from the spec: the record `model.Organization`, declared outside
the sources and out of the scope of the spec; the field is the one the
sources use. -/
structure model.Organization where
  Id : String
  deriving DecidableEq, Repr

/-- Modelled from the spec: the record `model.Project`, declared outside the
sources and out of the scope of the spec; the fields are those the sources
use, with the nil map as the empty list and the zero time as 0. -/
structure model.Project where
  Id : String
  Name : String
  Slug : String
  Organization : model.Organization
  Metadata : List (String × String)
  CreatedAt : Nat
  UpdatedAt : Nat
  deriving DecidableEq, Repr

/-- The zero value `model.Project{}`. -/
def model.Project.zero : model.Project :=
  { Id := "", Name := "", Slug := "", Organization := { Id := "" }, Metadata := [],
    CreatedAt := 0, UpdatedAt := 0 }

/-- Modelled from the spec: the record `model.User`, declared outside the
sources and out of the scope of the spec. -/
structure model.User where
  Id : String
  deriving DecidableEq, Repr

/-- Modelled from the spec: the record `model.Group`, declared outside the
sources and out of the scope of the spec. -/
structure model.Group where
  Id : String
  deriving DecidableEq, Repr

/-- Modelled from the spec: the record `model.Namespace`, declared outside the
sources and out of the scope of the spec. -/
structure model.Namespace where
  Id : String
  deriving DecidableEq, Repr

/-- Modelled from the spec: the record `model.Resource`, declared outside the
sources and out of the scope of the spec; the fields are those the sources
use. -/
structure model.Resource where
  Id : String
  Name : String
  Project : model.Project
  ProjectId : String
  Namespace : model.Namespace
  NamespaceId : String
  Organization : model.Organization
  OrganizationId : String
  Group : model.Group
  GroupId : String
  User : model.User
  UserId : String
  CreatedAt : Nat
  UpdatedAt : Nat
  deriving DecidableEq, Repr

/-- The zero value `model.Resource{}`. -/
def model.Resource.zero : model.Resource :=
  { Id := "", Name := "", Project := model.Project.zero, ProjectId := "",
    Namespace := { Id := "" }, NamespaceId := "", Organization := { Id := "" },
    OrganizationId := "", Group := { Id := "" }, GroupId := "", User := { Id := "" },
    UserId := "", CreatedAt := 0, UpdatedAt := 0 }

/-! ## Package project -/

/-- The variable `project.ProjectDoesntExist`. -/
def project.ProjectDoesntExist : Err :=
  Err.new "project.ProjectDoesntExist" "project doesn\x27t exist"

/-- The variable `project.InvalidUUID`. -/
def project.InvalidUUID : Err := Err.new "project.InvalidUUID" "invalid syntax of uuid"

/-- The calls `Service.Create` makes on its collaborators. -/
inductive project.Call where
  | FetchCurrentUser (ctx : Context)
  | CreateProject (ctx : Context) (org : model.Project)
  | AddAdminToProject (ctx : Context) (user : model.User) (project : model.Project)
  | AddProjectToOrg (ctx : Context) (project : model.Project) (org : model.Organization)
  deriving DecidableEq, Repr

/-- The interface `project.Store`, over the environment state. -/
structure project.Store (σ : Type) where
  GetProject : Context → String → σ → (model.Project × Option Err) × σ
  CreateProject : Context → model.Project → σ → (model.Project × Option Err) × σ
  ListProject : Context → σ → (List model.Project × Option Err) × σ
  UpdateProject : Context → model.Project → σ → (model.Project × Option Err) × σ

/-- Modelled from the spec: the interface `permission.Permissions`, declared
outside the sources and out of the scope of the spec; the methods are those
`Service.Create` calls, with the arguments and results it uses. -/
structure permission.Permissions (σ : Type) where
  FetchCurrentUser : Context → σ → (model.User × Option Err) × σ
  AddAdminToProject : Context → model.User → model.Project → σ → Option Err × σ
  AddProjectToOrg : Context → model.Project → model.Organization → σ → Option Err × σ

/-- The record `project.Service`. -/
structure project.Service (σ : Type) where
  Store : project.Store σ
  Permissions : permission.Permissions σ

/-- What a call of `Service.Create` leaves behind: the returned pair, the
collaborator calls made, and the environment. -/
structure project.CreateOutcome (σ : Type) where
  result : model.Project
  err : Option Err
  trace : List project.Call
  state : σ

/-- The method `Service.Get`. -/
def project.Service.Get {σ : Type} (s : project.Service σ) (ctx : Context) (id : String)
    (st : σ) : (model.Project × Option Err) × σ :=
  s.Store.GetProject ctx id st

/-- The method `Service.Create`. -/
def project.Service.Create {σ : Type} (s : project.Service σ) (ctx : Context)
    (project : model.Project) (st : σ) : Shield.project.CreateOutcome σ :=
  let fetched := s.Permissions.FetchCurrentUser ctx st
  let call1 := Shield.project.Call.FetchCurrentUser ctx
  match fetched.1.2 with
  | some err => { result := model.Project.zero, err := some err, trace := [call1],
                  state := fetched.2 }
  | none =>
    let user := fetched.1.1
    let arg : model.Project :=
      { Id := "", Name := project.Name, Slug := project.Slug,
        Organization := project.Organization, Metadata := project.Metadata,
        CreatedAt := 0, UpdatedAt := 0 }
    let created := s.Store.CreateProject ctx arg fetched.2
    let call2 := Shield.project.Call.CreateProject ctx arg
    match created.1.2 with
    | some err => { result := model.Project.zero, err := some err, trace := [call1, call2],
                    state := created.2 }
    | none =>
      let newProject := created.1.1
      let admin := s.Permissions.AddAdminToProject ctx user newProject created.2
      let call3 := Shield.project.Call.AddAdminToProject ctx user newProject
      match admin.1 with
      | some err => { result := model.Project.zero, err := some err,
                      trace := [call1, call2, call3], state := admin.2 }
      | none =>
        let added := s.Permissions.AddProjectToOrg ctx newProject project.Organization admin.2
        let call4 := Shield.project.Call.AddProjectToOrg ctx newProject project.Organization
        match added.1 with
        | some err => { result := model.Project.zero, err := some err,
                        trace := [call1, call2, call3, call4], state := added.2 }
        | none => { result := newProject, err := none,
                    trace := [call1, call2, call3, call4], state := added.2 }

/-- The method `Service.List`. -/
def project.Service.List {σ : Type} (s : project.Service σ) (ctx : Context) (st : σ) :
    (List model.Project × Option Err) × σ :=
  s.Store.ListProject ctx st

/-- The method `Service.Update`. -/
def project.Service.Update {σ : Type} (s : project.Service σ) (ctx : Context)
    (toUpdate : model.Project) (st : σ) : (model.Project × Option Err) × σ :=
  s.Store.UpdateProject ctx toUpdate st

/-! ## Package postgres -/

/-- The record `sql.NullString`. -/
structure sql.NullString where
  String : String
  Valid : Bool
  deriving DecidableEq, Repr

/-- An argument bound to a query placeholder. -/
inductive SqlArg where
  | str (s : String)
  | bytes (b : List Byte)
  | nullString (n : sql.NullString)
  deriving DecidableEq, Repr

/-- The row record `Project` of package postgres. -/
structure postgres.Project where
  Id : String
  Name : String
  Slug : String
  OrgId : String
  Metadata : List Byte
  CreatedAt : Nat
  UpdatedAt : Nat
  deriving DecidableEq, Repr

/-- The row record `Resource` of package postgres, without the nested row
records that no function reads. -/
structure postgres.Resource where
  Id : String
  Name : String
  ProjectId : String
  GroupId : sql.NullString
  OrganizationId : String
  NamespaceId : String
  UserId : sql.NullString
  CreatedAt : Nat
  UpdatedAt : Nat
  deriving DecidableEq, Repr

/-- The error variables the store uses that are declared outside the sources:
`dbErr` and `parseErr` of package postgres, `ResourceDoesntExist` and
`InvalidUUID` of package resource. -/
structure postgres.Errs where
  dbErr : Err
  parseErr : Err
  ResourceDoesntExist : Err
  InvalidUUID : Err

/-- The two functions of `encoding/json` the store calls, on project
metadata. -/
structure JSON where
  Marshal : List (String × String) → List Byte × Option Err
  Unmarshal : List Byte → List (String × String) × Option Err

/-- The database handle `DB`: what `GetContext` under `WithTimeout` leaves in
the destination row and returns as error, for a row of either kind. -/
structure postgres.DB where
  GetProject : Context → String → List SqlArg → postgres.Project × Option Err
  GetResource : Context → String → List SqlArg → postgres.Resource × Option Err

/-- The record `Store` of package postgres. -/
structure postgres.Store where
  DB : postgres.DB

/-- The query constant `getProjectsQuery`. -/
def postgres.getProjectsQuery : String :=
  "SELECT id, name, slug, org_id, metadata, created_at, updated_at from projects where id=$1;"

/-- The query constant `updateProjectQuery`. -/
def postgres.updateProjectQuery : String :=
  "UPDATE projects set name = $2, slug = $3, org_id=$4, metadata = $5, updated_at = now() where id = $1 RETURNING id, name, slug, metadata, created_at, updated_at;"

/-- The query constant `getResourcesQuery`. -/
def postgres.getResourcesQuery : String :=
  "\n\t\tSELECT\n\t\t\tid,\n\t\t    name,\n\t\t\tproject_id,\n\t\t\tgroup_id,\n\t\t\torg_id,\n\t\t\tnamespace_id,\n\t\t    user_id,\n\t\t\tcreated_at,\n\t\t\tupdated_at\n\t\tFROM resources\n\t\tWHERE id = $1"

/-- The query constant `updateResourceQuery`. -/
def postgres.updateResourceQuery : String :=
  "\n\t\tUPDATE resources SET\n\t\t    name = $2,\n\t\t\tproject_id = $3,\n\t\t\tgroup_id = $4,\n\t\t\torg_id = $5,\n\t\t\tnamespace_id = $6,\n\t\t    user_id = $7\n\t\tWHERE id = $1\n\t\t"

/-- The function `transformToProject`. -/
def postgres.transformToProject (js : JSON) (frm : postgres.Project) :
    model.Project × Option Err :=
  match js.Unmarshal frm.Metadata with
  | (_, some err) => (model.Project.zero, some err)
  | (unmarshalledMetadata, none) =>
    ({ Id := frm.Id, Name := frm.Name, Slug := frm.Slug, Organization := { Id := frm.OrgId },
       Metadata := unmarshalledMetadata, CreatedAt := frm.CreatedAt,
       UpdatedAt := frm.UpdatedAt }, none)

/-- The function `transformToResource`. -/
def postgres.transformToResource (frm : postgres.Resource) : model.Resource × Option Err :=
  ({ Id := frm.Id, Name := frm.Name,
     Project := { model.Project.zero with Id := frm.ProjectId }, ProjectId := frm.ProjectId,
     Namespace := { Id := frm.NamespaceId }, NamespaceId := frm.NamespaceId,
     Organization := { Id := frm.OrganizationId }, OrganizationId := frm.OrganizationId,
     Group := { Id := frm.GroupId.String }, GroupId := "",
     User := { Id := frm.UserId.String }, UserId := "",
     CreatedAt := frm.CreatedAt, UpdatedAt := frm.UpdatedAt }, none)

/-- The method `Store.GetProject`. -/
def postgres.Store.GetProject (v : postgres.Errs) (js : JSON) (s : postgres.Store)
    (ctx : Context) (id : String) : Run (model.Project × Option Err) :=
  let got := s.DB.GetProject ctx postgres.getProjectsQuery [SqlArg.str id]
  if errors.Is got.2 sql.ErrNoRows then
    Run.returned (model.Project.zero, some project.ProjectDoesntExist)
  else
    match got.2 with
    | some err =>
      match sliceTo (goBytes err.Error) 38 with
      | Run.sliceOutOfRange high length => Run.sliceOutOfRange high length
      | Run.returned head =>
        if head = goBytes "pq: invalid input syntax for type uuid" then
          Run.returned (model.Project.zero, some project.InvalidUUID)
        else
          Run.returned (model.Project.zero, some (fmt.Errorf_w_s v.dbErr err))
    | none =>
      match postgres.transformToProject js got.1 with
      | (_, some err) => Run.returned (model.Project.zero, some err)
      | (transformedProject, none) => Run.returned (transformedProject, none)

/-- The method `Store.UpdateProject`. -/
def postgres.Store.UpdateProject (v : postgres.Errs) (js : JSON) (s : postgres.Store)
    (ctx : Context) (toUpdate : model.Project) : Run (model.Project × Option Err) :=
  match js.Marshal toUpdate.Metadata with
  | (_, some err) => Run.returned (model.Project.zero, some (fmt.Errorf_w_s v.parseErr err))
  | (marshaledMetadata, none) =>
    let got := s.DB.GetProject ctx postgres.updateProjectQuery
      [SqlArg.str toUpdate.Id, SqlArg.str toUpdate.Name, SqlArg.str toUpdate.Slug,
       SqlArg.str toUpdate.Organization.Id, SqlArg.bytes marshaledMetadata]
    if errors.Is got.2 sql.ErrNoRows then
      Run.returned (model.Project.zero, some project.ProjectDoesntExist)
    else
      match got.2 with
      | some err =>
        match sliceTo (goBytes err.Error) 38 with
        | Run.sliceOutOfRange high length => Run.sliceOutOfRange high length
        | Run.returned head =>
          if head = goBytes "pq: invalid input syntax for type uuid" then
            Run.returned (model.Project.zero, some (fmt.Errorf_w_s project.InvalidUUID err))
          else
            Run.returned (model.Project.zero, some (fmt.Errorf_w_s v.dbErr err))
      | none =>
        match postgres.transformToProject js got.1 with
        | (_, some err) =>
          Run.returned (model.Project.zero, some (fmt.Errorf_s_w v.parseErr err))
        | (updated, none) => Run.returned (updated, none)

/-- The method `Store.GetResource`. -/
def postgres.Store.GetResource (v : postgres.Errs) (s : postgres.Store)
    (ctx : Context) (id : String) : Run (model.Resource × Option Err) :=
  let got := s.DB.GetResource ctx postgres.getResourcesQuery [SqlArg.str id]
  if errors.Is got.2 sql.ErrNoRows then
    Run.returned (model.Resource.zero, some v.ResourceDoesntExist)
  else
    match got.2 with
    | some err =>
      match sliceTo (goBytes err.Error) 38 with
      | Run.sliceOutOfRange high length => Run.sliceOutOfRange high length
      | Run.returned head =>
        if head = goBytes "pq: invalid input syntax for type uuid" then
          Run.returned (model.Resource.zero, some v.InvalidUUID)
        else
          Run.returned (model.Resource.zero, some (fmt.Errorf_w_s v.dbErr err))
    | none =>
      match postgres.transformToResource got.1 with
      | (_, some err) => Run.returned (model.Resource.zero, some err)
      | (transformedResource, none) => Run.returned (transformedResource, none)

/-- The method `Store.UpdateResource`. -/
def postgres.Store.UpdateResource (v : postgres.Errs) (s : postgres.Store)
    (ctx : Context) (id : String) (toUpdate : model.Resource) :
    Run (model.Resource × Option Err) :=
  let userId : sql.NullString :=
    { String := toUpdate.UserId, Valid := decide (toUpdate.UserId ≠ "") }
  let groupId : sql.NullString :=
    { String := toUpdate.GroupId, Valid := decide (toUpdate.GroupId ≠ "") }
  let got := s.DB.GetResource ctx postgres.updateResourceQuery
    [SqlArg.str id, SqlArg.str toUpdate.Name, SqlArg.str toUpdate.ProjectId,
     SqlArg.nullString groupId, SqlArg.str toUpdate.OrganizationId,
     SqlArg.str toUpdate.NamespaceId, SqlArg.nullString userId]
  if errors.Is got.2 sql.ErrNoRows then
    Run.returned (model.Resource.zero, some v.ResourceDoesntExist)
  else
    match got.2 with
    | some err =>
      match sliceTo (goBytes err.Error) 38 with
      | Run.sliceOutOfRange high length => Run.sliceOutOfRange high length
      | Run.returned head =>
        if head = goBytes "pq: invalid input syntax for type uuid" then
          Run.returned (model.Resource.zero, some (fmt.Errorf_w_s v.InvalidUUID err))
        else
          Run.returned (model.Resource.zero, some (fmt.Errorf_w_s v.dbErr err))
    | none =>
      match postgres.transformToResource got.1 with
      | (_, some err) =>
        Run.returned (model.Resource.zero, some (fmt.Errorf_s_w v.parseErr err))
      | (updated, none) => Run.returned (updated, none)

/-! ## Demonstration inputs for the bookkeeping services -/

/-- The argument `Service.Create` builds for the store (lines 40 to 45). -/
def project.Service.storeArgument (project : model.Project) : model.Project :=
  { Id := "", Name := project.Name, Slug := project.Slug,
    Organization := project.Organization, Metadata := project.Metadata,
    CreatedAt := 0, UpdatedAt := 0 }

/-- A permission service that knows the current user and accepts every
relation; the state counts its calls. -/
def grantingPermissions : permission.Permissions Nat :=
  { FetchCurrentUser := fun _ n => ((⟨"user-1"⟩, none), n + 1),
    AddAdminToProject := fun _ _ _ n => (none, n + 1),
    AddProjectToOrg := fun _ _ _ n => (none, n + 1) }

/-- The error of a caller whose identity header is empty. -/
def emptyEmailID : Err := Err.new "permission.emptyEmailID" "email id is empty"

/-- A permission service that cannot tell the current user. -/
def anonymousPermissions : permission.Permissions Nat :=
  { grantingPermissions with
    FetchCurrentUser := fun _ n => ((⟨""⟩, some emptyEmailID), n + 1) }

/-- A project store that stamps an id and a creation time on what it is given;
the state counts its calls in the hundreds. -/
def stampingStore : project.Store Nat :=
  { GetProject := fun _ _ n => ((model.Project.zero, none), n + 100),
    CreateProject := fun _ p n =>
      (({ p with Id := "project-1", CreatedAt := 7, UpdatedAt := 7 }, none), n + 100),
    ListProject := fun _ n => (([], none), n + 100),
    UpdateProject := fun _ p n => ((p, none), n + 100) }

/-- A project to create, sent with an id and timestamps of its own. -/
def incomingProject : model.Project :=
  { Id := "chosen-by-client", Name := "Shield", Slug := "shield",
    Organization := { Id := "org-1" }, Metadata := [("team", "platform")],
    CreatedAt := 3, UpdatedAt := 4 }

/-- Values for the error variables declared outside the sources. -/
def demoErrs : postgres.Errs :=
  { dbErr := Err.new "postgres.dbErr" "error while running the query",
    parseErr := Err.new "postgres.parseErr" "parsing error",
    ResourceDoesntExist := Err.new "resource.ResourceDoesntExist" "resource doesn\x27t exist",
    InvalidUUID := Err.new "resource.InvalidUUID" "invalid syntax of uuid" }

/-- A JSON codec that never fails. -/
def demoJSON : JSON :=
  { Marshal := fun _ => ([123, 125], none),
    Unmarshal := fun _ => ([], none) }

/-- The blank project row a failed query leaves behind. -/
def blankProjectRow : postgres.Project :=
  { Id := "", Name := "", Slug := "", OrgId := "", Metadata := [], CreatedAt := 0,
    UpdatedAt := 0 }

/-- The blank resource row a failed query leaves behind. -/
def blankResourceRow : postgres.Resource :=
  { Id := "", Name := "", ProjectId := "", GroupId := { String := "", Valid := false },
    OrganizationId := "", NamespaceId := "", UserId := { String := "", Valid := false },
    CreatedAt := 0, UpdatedAt := 0 }

/-- A database on which every query fails with the given error. -/
def failingDB (err : Err) : postgres.DB :=
  { GetProject := fun _ _ _ => (blankProjectRow, some err),
    GetResource := fun _ _ _ => (blankResourceRow, some err) }

/-- The error of a query that ran into its deadline, 25 bytes long. -/
def deadlineExceeded : Err :=
  Err.new "context.DeadlineExceeded" "context deadline exceeded"

/-- The error of the database on an id that is no UUID. -/
def invalidUUIDSyntax : Err :=
  Err.new "pq.Error" "pq: invalid input syntax for type uuid: \"42\""

/-- An error of a driver that has the text of `sql.ErrNoRows`, 26 bytes long,
and is not that variable. -/
def lookalikeNoRows : Err := Err.new "driver.noRows" "sql: no rows in result set"

/-- The variable `sql.ErrNoRows` wrapped with the name of the query. -/
def wrappedNoRows : Err :=
  Err.wrap "get project: sql: no rows in result set" sql.ErrNoRows

/-! ## Header map lemmas -/

theorem Header.lookup_Del_self (h : Header) (key : String) :
    (h.Del key).lookup key = none := by
  simp [Header.lookup, Header.Del, List.find?_eq_none]

theorem Header.lookup_Del_of_ne (h : Header) (key other : String) (hne : other ≠ key) :
    (h.Del key).lookup other = h.lookup other := by
  obtain ⟨l⟩ := h
  simp only [Header.lookup, Header.Del]
  congr 1
  induction l with
  | nil => rfl
  | cons kv l ih =>
    rw [List.filter_cons]
    by_cases hk : kv.1 = key
    · have hko : (kv.1 == other) = false := by
        simp only [beq_eq_false_iff_ne, ne_eq]
        exact fun h => hne (h ▸ hk)
      rw [if_neg (by simp [hk]), List.find?_cons, hko]
      exact ih
    · rw [if_pos (by simp [hk]), List.find?_cons, List.find?_cons, ih]

theorem Header.Get_Del_of_ne (h : Header) (key other : String) (hne : other ≠ key) :
    (h.Del key).Get other = h.Get other := by
  simp [Header.Get, Header.lookup_Del_of_ne h key other hne]

theorem Request.outbound_contentType (req : Request) :
    req.outbound.Header.Get "Content-Type" = req.Header.Get "Content-Type" :=
  Header.Get_Del_of_ne req.Header "Accept-Encoding" "Content-Type" (by decide)

/-! ## The transport wrapper -/

/-- C1: when per-request state holds a forwarding error under
`CtxRequestErrorKey`, `RoundTrip` returns a nil response with exactly that
error, makes no call on either pool or on the hook pipeline (its trace is
empty), and leaves the environment and the request as they were, whatever the
content type of the request. -/
theorem RoundTrip_preflight_error {σ : Type} (net : Net σ) (t : h2cTransportWrapper σ)
    (req : Request) (s : σ) (e : GoError)
    (h : req.Context.Value CtxKey.CtxRequestErrorKey = some (CtxValue.error e)) :
    (t.RoundTrip net req s).res = none ∧
    (t.RoundTrip net req s).err = some e ∧
    (t.RoundTrip net req s).trace = [] ∧
    (t.RoundTrip net req s).trace.filter Event.isPoolCall = [] ∧
    (t.RoundTrip net req s).trace.filter Event.isHookCall = [] ∧
    (t.RoundTrip net req s).state = s ∧
    (t.RoundTrip net req s).req = req := by
  simp [h2cTransportWrapper.RoundTrip, h, assertError]

/-- C1 witness: a gRPC request the rewrite stage marked as unroutable. -/
theorem RoundTrip_preflight_error_witness :
    unroutableRequest.Context.Value CtxKey.CtxRequestErrorKey
      = some (CtxValue.error ⟨"unknown host"⟩) ∧
    ((NewH2cRoundTripper ⟨"log"⟩ stampHook).RoundTrip demoNet unroutableRequest 0).res = none ∧
    ((NewH2cRoundTripper ⟨"log"⟩ stampHook).RoundTrip demoNet unroutableRequest 0).err
      = some ⟨"unknown host"⟩ ∧
    ((NewH2cRoundTripper ⟨"log"⟩ stampHook).RoundTrip demoNet unroutableRequest 0).trace = [] ∧
    ((NewH2cRoundTripper ⟨"log"⟩ stampHook).RoundTrip demoNet unroutableRequest 0).state = 0 :=
  have hw := RoundTrip_preflight_error demoNet (NewH2cRoundTripper ⟨"log"⟩ stampHook)
    unroutableRequest 0 ⟨"unknown host"⟩ (by decide)
  ⟨by decide, hw.1, hw.2.1, hw.2.2.1, hw.2.2.2.2.2.1⟩

theorem RoundTrip_of_grpc {σ : Type} (net : Net σ) (t : h2cTransportWrapper σ)
    (req : Request) (s : σ)
    (h : assertError (req.Context.Value CtxKey.CtxRequestErrorKey) = none)
    (hg : req.Header.Get "Content-Type" = "application/grpc") :
    t.RoundTrip net req s
      = afterPool t req (Event.grpcRoundTrip req.outbound)
          (net.grpcRoundTrip t.grpcTransport req.outbound s) := by
  have hb : ((req.Header.Del "Accept-Encoding").Get "Content-Type" == "application/grpc")
      = true := by
    have := req.outbound_contentType
    simp only [Request.outbound] at this
    simp [this, hg]
  simp only [h2cTransportWrapper.RoundTrip, afterPool, Request.outbound]
  simp only [h, hb, if_true]

theorem RoundTrip_of_not_grpc {σ : Type} (net : Net σ) (t : h2cTransportWrapper σ)
    (req : Request) (s : σ)
    (h : assertError (req.Context.Value CtxKey.CtxRequestErrorKey) = none)
    (hg : req.Header.Get "Content-Type" ≠ "application/grpc") :
    t.RoundTrip net req s
      = afterPool t req (Event.httpRoundTrip req.outbound)
          (net.httpRoundTrip t.httpTransport req.outbound s) := by
  have hb : ((req.Header.Del "Accept-Encoding").Get "Content-Type" == "application/grpc")
      = false := by
    have := req.outbound_contentType
    simp only [Request.outbound] at this
    simp [this, hg]
  simp only [h2cTransportWrapper.RoundTrip, afterPool, Request.outbound]
  simp only [h, hb, Bool.false_eq_true, if_false]

theorem afterPool_trace {σ : Type} (t : h2cTransportWrapper σ) (req : Request) (sent : Event)
    (r : RoundTripResult × σ) :
    ∃ dbg fields tail, dbg = Event.logDebug "proxy request" fields ∧
      (afterPool t req sent r).trace = dbg :: sent :: tail ∧
      (tail = [] ∨ tail = [Event.serveHook r.1.1 none]) := by
  unfold afterPool
  split
  · exact ⟨_, _, [], rfl, rfl, Or.inl rfl⟩
  · exact ⟨_, _, _, rfl, rfl, Or.inr rfl⟩

theorem afterPool_follows {σ : Type} (t : h2cTransportWrapper σ) (req : Request) (sent : Event)
    (r : RoundTripResult × σ) (res : Option Response) (err : Option GoError) (s1 : σ)
    (hr : r = ((res, err), s1)) :
    (∀ e : GoError, err = some e →
      (afterPool t req sent r).res = res ∧ (afterPool t req sent r).err = some e ∧
      (afterPool t req sent r).state = s1) ∧
    (err = none →
      (afterPool t req sent r).res = (t.hook.ServeHook res none s1).1.1 ∧
      (afterPool t req sent r).err = (t.hook.ServeHook res none s1).1.2 ∧
      (afterPool t req sent r).state = (t.hook.ServeHook res none s1).2) ∧
    (afterPool t req sent r).req = req.outbound := by
  subst hr
  refine ⟨?_, ?_, ?_⟩
  · intro e he
    subst he
    simp [afterPool]
  · intro he
    subst he
    simp [afterPool]
  · unfold afterPool
    split <;> rfl

/-- C2: with no forwarding error recorded, `RoundTrip` makes exactly one pool
call: on the cleartext-HTTP/2 pool exactly when the `Content-Type` value of
the request is `application/grpc`, and on the general pool for every other
value (the empty one of an absent header included).  The call is the round
trip itself: what `RoundTrip` returns and the environment it leaves are those
of the answer the selected pool gives to the outbound request, passed on as it
is when it carries an error and through the hook pipeline otherwise; the
behaviour of the pool that was not selected has no influence on the outcome. -/
theorem RoundTrip_selects_pool {σ : Type} (net : Net σ) (t : h2cTransportWrapper σ)
    (req : Request) (s : σ)
    (h : assertError (req.Context.Value CtxKey.CtxRequestErrorKey) = none) :
    (t.RoundTrip net req s).trace.filter Event.isPoolCall
      = [if req.Header.Get "Content-Type" = "application/grpc"
         then Event.grpcRoundTrip req.outbound else Event.httpRoundTrip req.outbound] ∧
    ((t.RoundTrip net req s).trace.filter Event.isPoolCall).length = 1 ∧
    ((∃ r, Event.grpcRoundTrip r ∈ (t.RoundTrip net req s).trace)
      ↔ req.Header.Get "Content-Type" = "application/grpc") ∧
    ((∃ r, Event.httpRoundTrip r ∈ (t.RoundTrip net req s).trace)
      ↔ req.Header.Get "Content-Type" ≠ "application/grpc") ∧
    (req.Header.Get "Content-Type" = "application/grpc" →
      ∀ other : Net σ, other.grpcRoundTrip = net.grpcRoundTrip →
        t.RoundTrip other req s = t.RoundTrip net req s) ∧
    (req.Header.Get "Content-Type" ≠ "application/grpc" →
      ∀ other : Net σ, other.httpRoundTrip = net.httpRoundTrip →
        t.RoundTrip other req s = t.RoundTrip net req s) ∧
    (req.Header.Get "Content-Type" = "application/grpc" →
      ∀ (res : Option Response) (err : Option GoError) (s1 : σ),
        net.grpcRoundTrip t.grpcTransport req.outbound s = ((res, err), s1) →
        (∀ e : GoError, err = some e →
          (t.RoundTrip net req s).res = res ∧ (t.RoundTrip net req s).err = some e ∧
          (t.RoundTrip net req s).state = s1) ∧
        (err = none →
          (t.RoundTrip net req s).res = (t.hook.ServeHook res none s1).1.1 ∧
          (t.RoundTrip net req s).err = (t.hook.ServeHook res none s1).1.2 ∧
          (t.RoundTrip net req s).state = (t.hook.ServeHook res none s1).2)) ∧
    (req.Header.Get "Content-Type" ≠ "application/grpc" →
      ∀ (res : Option Response) (err : Option GoError) (s1 : σ),
        net.httpRoundTrip t.httpTransport req.outbound s = ((res, err), s1) →
        (∀ e : GoError, err = some e →
          (t.RoundTrip net req s).res = res ∧ (t.RoundTrip net req s).err = some e ∧
          (t.RoundTrip net req s).state = s1) ∧
        (err = none →
          (t.RoundTrip net req s).res = (t.hook.ServeHook res none s1).1.1 ∧
          (t.RoundTrip net req s).err = (t.hook.ServeHook res none s1).1.2 ∧
          (t.RoundTrip net req s).state = (t.hook.ServeHook res none s1).2)) := by
  by_cases hg : req.Header.Get "Content-Type" = "application/grpc"
  · rw [RoundTrip_of_grpc net t req s h hg]
    obtain ⟨dbg, fields, tail, hd, htr, htail⟩ := afterPool_trace t req
      (Event.grpcRoundTrip req.outbound) (net.grpcRoundTrip t.grpcTransport req.outbound s)
    rw [htr, hd]
    refine ⟨?_, ?_, ?_, ?_, ?_, ?_, ?_, ?_⟩
    · rcases htail with ht | ht <;> simp [ht, hg, Event.isPoolCall, List.filter]
    · rcases htail with ht | ht <;> simp [ht, Event.isPoolCall, List.filter]
    · rcases htail with ht | ht <;> simp [ht, hg]
    · rcases htail with ht | ht <;> simp [ht, hg]
    · intro _ other ho
      rw [RoundTrip_of_grpc other t req s h hg, ho]
    · intro hn
      exact absurd hg hn
    · intro _ res err s1 hr
      have hf := afterPool_follows t req (Event.grpcRoundTrip req.outbound) _ res err s1 hr
      exact ⟨hf.1, hf.2.1⟩
    · intro hn
      exact absurd hg hn
  · rw [RoundTrip_of_not_grpc net t req s h hg]
    obtain ⟨dbg, fields, tail, hd, htr, htail⟩ := afterPool_trace t req
      (Event.httpRoundTrip req.outbound) (net.httpRoundTrip t.httpTransport req.outbound s)
    rw [htr, hd]
    refine ⟨?_, ?_, ?_, ?_, ?_, ?_, ?_, ?_⟩
    · rcases htail with ht | ht <;> simp [ht, hg, Event.isPoolCall, List.filter]
    · rcases htail with ht | ht <;> simp [ht, Event.isPoolCall, List.filter]
    · rcases htail with ht | ht <;> simp [ht, hg]
    · rcases htail with ht | ht <;> simp [ht, hg]
    · intro hn
      exact absurd hn hg
    · intro _ other ho
      rw [RoundTrip_of_not_grpc other t req s h hg, ho]
    · intro hn
      exact absurd hn hg
    · intro _ res err s1 hr
      have hf := afterPool_follows t req (Event.httpRoundTrip req.outbound) _ res err s1 hr
      exact ⟨hf.1, hf.2.1⟩

/-- C2 witness: the content type `application/grpc+proto` is not the gRPC
media type, so the single pool call goes to the general pool, whose answer,
status 200 and not the 204 of the other pool, is what the hook stamps and the
caller gets. -/
theorem RoundTrip_selects_pool_witness :
    assertError (grpcProtoRequest.Context.Value CtxKey.CtxRequestErrorKey) = none ∧
    ((NewH2cRoundTripper ⟨"log"⟩ stampHook).RoundTrip demoNet grpcProtoRequest 0).trace.filter
        Event.isPoolCall = [Event.httpRoundTrip grpcProtoRequest.outbound] ∧
    ((NewH2cRoundTripper ⟨"log"⟩ stampHook).RoundTrip demoNet grpcProtoRequest 0).res
      = some ⟨200, ⟨[("X-Hook", ["seen"])]⟩, [1]⟩ ∧
    ((NewH2cRoundTripper ⟨"log"⟩ stampHook).RoundTrip demoNet grpcProtoRequest 0).state = 101 :=
  have hw := RoundTrip_selects_pool demoNet (NewH2cRoundTripper ⟨"log"⟩ stampHook)
    grpcProtoRequest 0 (by decide)
  have hp := (hw.2.2.2.2.2.2.2 (by decide) (some ⟨200, ⟨[]⟩, [1]⟩) none 1 (by decide)).2 rfl
  ⟨by decide, hw.1.trans (by decide), hp.1.trans (by decide), hp.2.2.trans (by decide)⟩

/-- C3: with no forwarding error recorded, when the round trip on the selected
pool succeeds with response `res`, `RoundTrip` calls the hook pipeline exactly
once, on `res` and a nil error, in the environment the pool left, and returns
exactly the pair the hook pipeline yields (a changed response or a hook error
alike), leaving the environment as the hook left it. -/
theorem RoundTrip_success_runs_hook {σ : Type} (net : Net σ) (t : h2cTransportWrapper σ)
    (req : Request) (s s1 : σ) (res : Option Response)
    (h : assertError (req.Context.Value CtxKey.CtxRequestErrorKey) = none)
    (hp : (if req.Header.Get "Content-Type" = "application/grpc"
           then net.grpcRoundTrip t.grpcTransport req.outbound s
           else net.httpRoundTrip t.httpTransport req.outbound s) = ((res, none), s1)) :
    (t.RoundTrip net req s).trace.filter Event.isHookCall = [Event.serveHook res none] ∧
    (t.RoundTrip net req s).res = (t.hook.ServeHook res none s1).1.1 ∧
    (t.RoundTrip net req s).err = (t.hook.ServeHook res none s1).1.2 ∧
    (t.RoundTrip net req s).state = (t.hook.ServeHook res none s1).2 := by
  by_cases hg : req.Header.Get "Content-Type" = "application/grpc"
  · rw [if_pos hg] at hp
    rw [RoundTrip_of_grpc net t req s h hg, hp]
    simp [afterPool, Event.isHookCall, List.filter]
  · rw [if_neg hg] at hp
    rw [RoundTrip_of_not_grpc net t req s h hg, hp]
    simp [afterPool, Event.isHookCall, List.filter]

/-- C3 witness: the general pool answers 200 and the hook stamps a header; the
caller sees the stamped response and the hook ran once. -/
theorem RoundTrip_success_runs_hook_witness :
    ((NewH2cRoundTripper ⟨"log"⟩ stampHook).RoundTrip demoNet jsonRequest 0).trace.filter
        Event.isHookCall = [Event.serveHook (some ⟨200, ⟨[]⟩, [1]⟩) none] ∧
    ((NewH2cRoundTripper ⟨"log"⟩ stampHook).RoundTrip demoNet jsonRequest 0).res
      = some ⟨200, ⟨[("X-Hook", ["seen"])]⟩, [1]⟩ ∧
    ((NewH2cRoundTripper ⟨"log"⟩ stampHook).RoundTrip demoNet jsonRequest 0).err = none ∧
    ((NewH2cRoundTripper ⟨"log"⟩ stampHook).RoundTrip demoNet jsonRequest 0).state = 101 :=
  RoundTrip_success_runs_hook demoNet (NewH2cRoundTripper ⟨"log"⟩ stampHook) jsonRequest 0 1
    (some ⟨200, ⟨[]⟩, [1]⟩) (by decide) (by decide)

/-- C4: with no forwarding error recorded, when the round trip on the selected
pool returns the response value `res` with a non-nil error `e`, `RoundTrip`
returns `res` and `e` unchanged, never calls the hook pipeline, and leaves the
environment as the pool left it. -/
theorem RoundTrip_pool_error {σ : Type} (net : Net σ) (t : h2cTransportWrapper σ)
    (req : Request) (s s1 : σ) (res : Option Response) (e : GoError)
    (h : assertError (req.Context.Value CtxKey.CtxRequestErrorKey) = none)
    (hp : (if req.Header.Get "Content-Type" = "application/grpc"
           then net.grpcRoundTrip t.grpcTransport req.outbound s
           else net.httpRoundTrip t.httpTransport req.outbound s) = ((res, some e), s1)) :
    (t.RoundTrip net req s).res = res ∧
    (t.RoundTrip net req s).err = some e ∧
    (t.RoundTrip net req s).trace.filter Event.isHookCall = [] ∧
    (t.RoundTrip net req s).state = s1 := by
  by_cases hg : req.Header.Get "Content-Type" = "application/grpc"
  · rw [if_pos hg] at hp
    rw [RoundTrip_of_grpc net t req s h hg, hp]
    simp [afterPool, Event.isHookCall, List.filter]
  · rw [if_neg hg] at hp
    rw [RoundTrip_of_not_grpc net t req s h hg, hp]
    simp [afterPool, Event.isHookCall, List.filter]

/-- C4 witness: a refused gRPC dial comes back unchanged and the hook, which
would have moved the state by a hundred, did not run. -/
theorem RoundTrip_pool_error_witness :
    ((NewH2cRoundTripper ⟨"log"⟩ stampHook).RoundTrip refusingNet grpcRequest 0).res = none ∧
    ((NewH2cRoundTripper ⟨"log"⟩ stampHook).RoundTrip refusingNet grpcRequest 0).err
      = some ⟨"connection refused"⟩ ∧
    ((NewH2cRoundTripper ⟨"log"⟩ stampHook).RoundTrip refusingNet grpcRequest 0).trace.filter
        Event.isHookCall = [] ∧
    ((NewH2cRoundTripper ⟨"log"⟩ stampHook).RoundTrip refusingNet grpcRequest 0).state = 1 :=
  RoundTrip_pool_error refusingNet (NewH2cRoundTripper ⟨"log"⟩ stampHook) grpcRequest 0 1
    none ⟨"connection refused"⟩ (by decide) (by decide)

/-- C5: every request that `RoundTrip` hands to either pool has no
`Accept-Encoding` entry in its header map, whatever the header map of the
request given to `RoundTrip` held under that key.  This holds of the request
recorded as sent, of the request the call leaves behind, and of the argument
the pool is applied to: what `RoundTrip` returns is built from the answer of
the selected pool to the outbound request, which has no such entry, and two
networks that answer alike on every request without an `Accept-Encoding`
entry give the same outcome. -/
theorem RoundTrip_strips_accept_encoding {σ : Type} (net : Net σ) (t : h2cTransportWrapper σ)
    (req : Request) (s : σ) :
    (∀ sent : Request,
      (Event.httpRoundTrip sent ∈ (t.RoundTrip net req s).trace ∨
       Event.grpcRoundTrip sent ∈ (t.RoundTrip net req s).trace) →
      sent.Header.lookup "Accept-Encoding" = none ∧
      sent.Header.Values "Accept-Encoding" = [] ∧
      sent.Header.Get "Accept-Encoding" = "" ∧
      (∀ kv ∈ sent.Header.entries, kv.1 ≠ "Accept-Encoding")) ∧
    req.outbound.Header.lookup "Accept-Encoding" = none ∧
    (assertError (req.Context.Value CtxKey.CtxRequestErrorKey) = none →
      (t.RoundTrip net req s).req = req.outbound ∧
      (t.RoundTrip net req s).req.Header.lookup "Accept-Encoding" = none ∧
      (∀ (res : Option Response) (err : Option GoError) (s1 : σ),
        (if req.Header.Get "Content-Type" = "application/grpc"
         then net.grpcRoundTrip t.grpcTransport req.outbound s
         else net.httpRoundTrip t.httpTransport req.outbound s) = ((res, err), s1) →
        (∀ e : GoError, err = some e →
          (t.RoundTrip net req s).res = res ∧ (t.RoundTrip net req s).err = some e ∧
          (t.RoundTrip net req s).state = s1) ∧
        (err = none →
          (t.RoundTrip net req s).res = (t.hook.ServeHook res none s1).1.1 ∧
          (t.RoundTrip net req s).err = (t.hook.ServeHook res none s1).1.2 ∧
          (t.RoundTrip net req s).state = (t.hook.ServeHook res none s1).2))) ∧
    (∀ other : Net σ,
      (∀ (p : HttpTransport) (r : Request) (st : σ),
        r.Header.lookup "Accept-Encoding" = none →
          other.httpRoundTrip p r st = net.httpRoundTrip p r st) →
      (∀ (p : Http2Transport) (r : Request) (st : σ),
        r.Header.lookup "Accept-Encoding" = none →
          other.grpcRoundTrip p r st = net.grpcRoundTrip p r st) →
      t.RoundTrip other req s = t.RoundTrip net req s) := by
  have hstrip : req.outbound.Header.lookup "Accept-Encoding" = none :=
    Header.lookup_Del_self req.Header "Accept-Encoding"
  refine ⟨?_, hstrip, ?_, ?_⟩
  · intro sent hs
    have hout : sent = req.outbound := by
      cases he : assertError (req.Context.Value CtxKey.CtxRequestErrorKey) with
      | some err =>
        simp [h2cTransportWrapper.RoundTrip, he] at hs
      | none =>
        by_cases hg : req.Header.Get "Content-Type" = "application/grpc"
        · rw [RoundTrip_of_grpc net t req s he hg] at hs
          obtain ⟨dbg, fields, tail, hd, htr, htail⟩ := afterPool_trace t req
            (Event.grpcRoundTrip req.outbound)
            (net.grpcRoundTrip t.grpcTransport req.outbound s)
          rw [htr, hd] at hs
          rcases htail with ht | ht <;> simpa [ht] using hs
        · rw [RoundTrip_of_not_grpc net t req s he hg] at hs
          obtain ⟨dbg, fields, tail, hd, htr, htail⟩ := afterPool_trace t req
            (Event.httpRoundTrip req.outbound)
            (net.httpRoundTrip t.httpTransport req.outbound s)
          rw [htr, hd] at hs
          rcases htail with ht | ht <;> simpa [ht] using hs
    have hl : sent.Header.lookup "Accept-Encoding" = none := by
      rw [hout]
      exact hstrip
    refine ⟨hl, by simp [Header.Values, hl], by simp [Header.Get, hl], ?_⟩
    intro kv hkv
    rw [hout] at hkv
    simp only [Request.outbound, Header.Del, List.mem_filter] at hkv
    simpa using hkv.2
  · intro he
    by_cases hg : req.Header.Get "Content-Type" = "application/grpc"
    · rw [RoundTrip_of_grpc net t req s he hg, if_pos hg]
      have hreq := (afterPool_follows t req (Event.grpcRoundTrip req.outbound)
        (net.grpcRoundTrip t.grpcTransport req.outbound s) _ _ _ rfl).2.2
      refine ⟨hreq, by rw [hreq]; exact hstrip, ?_⟩
      intro res err s1 hr
      have hf := afterPool_follows t req (Event.grpcRoundTrip req.outbound) _ res err s1 hr
      exact ⟨hf.1, hf.2.1⟩
    · rw [RoundTrip_of_not_grpc net t req s he hg, if_neg hg]
      have hreq := (afterPool_follows t req (Event.httpRoundTrip req.outbound)
        (net.httpRoundTrip t.httpTransport req.outbound s) _ _ _ rfl).2.2
      refine ⟨hreq, by rw [hreq]; exact hstrip, ?_⟩
      intro res err s1 hr
      have hf := afterPool_follows t req (Event.httpRoundTrip req.outbound) _ res err s1 hr
      exact ⟨hf.1, hf.2.1⟩
  · intro other hh hgr
    cases he : assertError (req.Context.Value CtxKey.CtxRequestErrorKey) with
    | some err =>
      simp [h2cTransportWrapper.RoundTrip, he]
    | none =>
      by_cases hg : req.Header.Get "Content-Type" = "application/grpc"
      · rw [RoundTrip_of_grpc other t req s he hg, RoundTrip_of_grpc net t req s he hg,
          hgr _ _ _ hstrip]
      · rw [RoundTrip_of_not_grpc other t req s he hg, RoundTrip_of_not_grpc net t req s he hg,
          hh _ _ _ hstrip]

/-- C5 witness: a request that came in with two `Accept-Encoding` values
reaches the general pool without the header: the network that keeps the
requests it is given has kept the stripped request and nothing else. -/
theorem RoundTrip_strips_accept_encoding_witness :
    jsonRequest.Header.Values "Accept-Encoding" = ["gzip", "br"] ∧
    Event.httpRoundTrip jsonRequest.outbound
      ∈ ((NewH2cRoundTripper ⟨"log"⟩ stampHook).RoundTrip demoNet jsonRequest 0).trace ∧
    jsonRequest.outbound.Header.lookup "Accept-Encoding" = none ∧
    jsonRequest.outbound.Header.entries = [("Content-Type", ["application/json"])] ∧
    ((NewH2cRoundTripper ⟨"log"⟩ passHook).RoundTrip recordingNet jsonRequest []).state
      = [{ jsonRequest with Header := ⟨[("Content-Type", ["application/json"])]⟩ }] ∧
    ((NewH2cRoundTripper ⟨"log"⟩ passHook).RoundTrip recordingNet jsonRequest []).req.Header
      = ⟨[("Content-Type", ["application/json"])]⟩ :=
  have hw := RoundTrip_strips_accept_encoding recordingNet (NewH2cRoundTripper ⟨"log"⟩ passHook)
    jsonRequest []
  have hn := hw.2.2.1 (by decide)
  have hp := (hn.2.2 (some ⟨200, ⟨[]⟩, []⟩) none [jsonRequest.outbound] (by decide)).2 rfl
  ⟨by decide, by decide,
   ((RoundTrip_strips_accept_encoding demoNet (NewH2cRoundTripper ⟨"log"⟩ stampHook)
      jsonRequest 0).1 jsonRequest.outbound (Or.inl (by decide))).1,
   by decide, hp.2.2.trans (by decide), by rw [hn.1]; decide⟩

/-- C10: for every logger and hook service, the wrapper `NewH2cRoundTripper`
builds has a general pool with a dial timeout of ten seconds, a keep-alive of
one minute and compression disabled, and a cleartext-HTTP/2 pool with
compression disabled, plain-HTTP targets allowed and a dial function that
opens a plain connection whatever TLS configuration it is given; it carries
the logger and the hook service it was given. -/
theorem NewH2cRoundTripper_settings {σ : Type} (log : Logger) (hook : HookService σ) :
    (NewH2cRoundTripper log hook).httpTransport.DialContext.Timeout = 10 * time.Second ∧
    (NewH2cRoundTripper log hook).httpTransport.DialContext.Timeout = 10000000000 ∧
    (NewH2cRoundTripper log hook).httpTransport.DialContext.KeepAlive = time.Minute ∧
    (NewH2cRoundTripper log hook).httpTransport.DialContext.KeepAlive = 60 * time.Second ∧
    (NewH2cRoundTripper log hook).httpTransport.DisableCompression = true ∧
    (NewH2cRoundTripper log hook).grpcTransport.DisableCompression = true ∧
    (NewH2cRoundTripper log hook).grpcTransport.AllowHTTP = true ∧
    (∀ (network addr : String) (cfg : Option TLSConfig),
      (NewH2cRoundTripper log hook).grpcTransport.DialTLS network addr cfg
        = DialAction.netDial network addr) ∧
    (NewH2cRoundTripper log hook).log = log ∧
    (NewH2cRoundTripper log hook).hook = hook := by
  refine ⟨rfl, ?_, ?_, ?_, rfl, rfl, rfl, fun _ _ _ => rfl, rfl, rfl⟩
  · simp [NewH2cRoundTripper, time.Second]
  · simp [NewH2cRoundTripper]
  · simp [NewH2cRoundTripper, time.Minute]

/-! ## The rule-match middleware -/

theorem Context.Value_cons_of_ne (ctx : Context) (k key : CtxKey) (v : CtxValue)
    (hne : k ≠ key) : Context.Value ((k, v) :: ctx) key = Context.Value ctx key := by
  have hk : (k == key) = false := by simpa using hne
  simp [Context.Value, List.find?_cons, hk]

theorem Context.Value_cons_self (ctx : Context) (key : CtxKey) (v : CtxValue) :
    Context.Value ((key, v) :: ctx) key = some v := by
  simp [Context.Value, List.find?_cons]

theorem middleware.EnrichRequestBody_of_readable (req : Request) (hb : req.Body.fail = none) :
    middleware.EnrichRequestBody req
      = ({ req with Body := bytes.NewBuffer req.Body.data,
                    ctx := (CtxKey.ctxBodyKey, CtxValue.body req.Body.data) :: req.ctx }, none) := by
  have hrd : req.Body.ReadAll = (req.Body.data, none) := by simp [Body.ReadAll, hb]
  simp [middleware.EnrichRequestBody, hrd]

theorem ServeHTTP_of_match_ok {σ : Type} (m : Ware σ) (rw : ResponseWriter) (req : Request)
    (s : σ) (hm : (m.ruleMatcher.Match req s).1.2 = none) (hb : req.Body.fail = none) :
    m.ServeHTTP middleware rw req s
      = { req := (middleware.EnrichRequestBody
                    (middleware.EnrichRule req (m.ruleMatcher.Match req s).1.1)).1,
          trace := [Event.ruleMatch req, Event.enrichRule req (m.ruleMatcher.Match req s).1.1,
            Event.enrichRequestBody (middleware.EnrichRule req (m.ruleMatcher.Match req s).1.1),
            Event.nextServeHTTP rw
              (middleware.EnrichRequestBody
                (middleware.EnrichRule req (m.ruleMatcher.Match req s).1.1)).1],
          state := m.next.ServeHTTP rw
            (middleware.EnrichRequestBody
              (middleware.EnrichRule req (m.ruleMatcher.Match req s).1.1)).1
            (m.ruleMatcher.Match req s).2 } := by
  have he : (middleware.EnrichRequestBody
      (middleware.EnrichRule req (m.ruleMatcher.Match req s).1.1)).2 = none := by
    rw [middleware.EnrichRequestBody_of_readable _ (by simpa [middleware.EnrichRule] using hb)]
  simp only [Ware.ServeHTTP, hm, middleware, he]

theorem middleware.EnrichRequestBody_EnrichRule (req : Request) (rule : Option Rule)
    (hb : req.Body.fail = none) :
    (middleware.EnrichRequestBody (middleware.EnrichRule req rule)).1
      = { req with Body := bytes.NewBuffer req.Body.data,
                   ctx := (CtxKey.ctxBodyKey, CtxValue.body req.Body.data) ::
                     (CtxKey.ctxRuleKey, CtxValue.rule rule) :: req.ctx } := by
  rw [middleware.EnrichRequestBody_of_readable _ (by simpa [middleware.EnrichRule] using hb)]
  simp [middleware.EnrichRule]

/-- C6: when the rule matcher returns an error, be it `ErrUnknownRule` or any
other, `ServeHTTP` writes status 400 and nothing else to the response writer,
never calls the downstream handler, calls neither `EnrichRule` nor
`EnrichRequestBody` (the request is left as it came in), and a second run
that fails with any other matcher error writes the same status. -/
theorem ServeHTTP_match_error {σ : Type} (mw : Enrichment) (m m2 : Ware σ)
    (rw : ResponseWriter) (req req2 : Request) (s s2 : σ) (e e2 : GoError)
    (hm : (m.ruleMatcher.Match req s).1.2 = some e)
    (hm2 : (m2.ruleMatcher.Match req2 s2).1.2 = some e2) :
    statusWrites rw (m.ServeHTTP mw rw req s).trace = [400] ∧
    (m.ServeHTTP mw rw req s).trace.filter Event.isNextCall = [] ∧
    (m.ServeHTTP mw rw req s).trace.filter Event.isEnrichCall = [] ∧
    (m.ServeHTTP mw rw req s).req = req ∧
    (m.ServeHTTP mw rw req s).state = (m.ruleMatcher.Match req s).2 ∧
    (m.ServeHTTP mw rw req s).trace
      = [Event.ruleMatch req,
         Event.logInfo "middleware: failed to match rule"
           [("path", LogValue.url req.URL), ("err", LogValue.err e)],
         Event.writeHeader rw http.StatusBadRequest] ∧
    statusWrites rw (m2.ServeHTTP mw rw req2 s2).trace
      = statusWrites rw (m.ServeHTTP mw rw req s).trace := by
  simp [Ware.ServeHTTP, hm, hm2, statusWrites, Event.isNextCall, Event.isEnrichCall,
    http.StatusBadRequest]

/-- C6 witness: an unknown rule and a matcher breakdown both end in 400. -/
theorem ServeHTTP_match_error_witness :
    (unknownRuleMatcher.Match postRequest 0).1.2 = some ErrUnknownRule ∧
    (faultyMatcher.Match jsonRequest 7).1.2 = some ⟨"rule set not loaded"⟩ ∧
    statusWrites ⟨1⟩
      ((New ⟨"log"⟩ countingHandler unknownRuleMatcher).ServeHTTP middleware ⟨1⟩
        postRequest 0).trace = [400] ∧
    statusWrites ⟨1⟩
      ((New ⟨"log"⟩ countingHandler faultyMatcher).ServeHTTP middleware ⟨1⟩
        jsonRequest 7).trace = [400] ∧
    ((New ⟨"log"⟩ countingHandler unknownRuleMatcher).ServeHTTP middleware ⟨1⟩
        postRequest 0).state = 1 :=
  have hw := ServeHTTP_match_error middleware
    (New ⟨"log"⟩ countingHandler unknownRuleMatcher) (New ⟨"log"⟩ countingHandler faultyMatcher)
    ⟨1⟩ postRequest jsonRequest 0 7 ErrUnknownRule ⟨"rule set not loaded"⟩
    (by decide) (by decide)
  ⟨by decide, by decide, hw.1, hw.2.2.2.2.2.2.trans hw.1, hw.2.2.2.2.1⟩

/-- C7: when the rule matcher returns a rule with a nil error and the body can
be read, `ServeHTTP` calls the downstream handler exactly once, as its last
step and after the call of `EnrichRule`, on the request it leaves behind: that
request differs from the incoming one only in its per-request state and its
restored body stream, the rule retrievable from its state is the one the
matcher returned, and the middleware writes no status to any response
writer. -/
theorem ServeHTTP_match_ok {σ : Type} (m : Ware σ) (rw : ResponseWriter) (req : Request)
    (s s1 : σ) (rule : Rule)
    (hm : m.ruleMatcher.Match req s = ((some rule, none), s1))
    (hb : req.Body.fail = none) :
    (m.ServeHTTP middleware rw req s).trace.filter Event.isNextCall
      = [Event.nextServeHTTP rw (m.ServeHTTP middleware rw req s).req] ∧
    (m.ServeHTTP middleware rw req s).trace
      = [Event.ruleMatch req, Event.enrichRule req (some rule),
         Event.enrichRequestBody (middleware.EnrichRule req (some rule)),
         Event.nextServeHTTP rw (m.ServeHTTP middleware rw req s).req] ∧
    middleware.ExtractRule (m.ServeHTTP middleware rw req s).req = some rule ∧
    (m.ServeHTTP middleware rw req s).req.Method = req.Method ∧
    (m.ServeHTTP middleware rw req s).req.URL = req.URL ∧
    (m.ServeHTTP middleware rw req s).req.Proto = req.Proto ∧
    (m.ServeHTTP middleware rw req s).req.Header = req.Header ∧
    (∀ w : ResponseWriter, statusWrites w (m.ServeHTTP middleware rw req s).trace = []) ∧
    (m.ServeHTTP middleware rw req s).state
      = m.next.ServeHTTP rw (m.ServeHTTP middleware rw req s).req s1 := by
  have hm2 : (m.ruleMatcher.Match req s).1.2 = none := by rw [hm]
  rw [ServeHTTP_of_match_ok m rw req s hm2 hb, hm]
  have hreq := middleware.EnrichRequestBody_EnrichRule req (some rule) hb
  refine ⟨?_, rfl, ?_, ?_, ?_, ?_, ?_, ?_, rfl⟩
  · simp [Event.isNextCall, List.filter]
  · simp only [hreq, middleware.ExtractRule, Request.Context]
    rw [Context.Value_cons_of_ne _ _ _ _ (by decide), Context.Value_cons_self]
  · simp [hreq]
  · simp [hreq]
  · simp [hreq]
  · simp [hreq]
  · intro w
    simp [statusWrites]

/-- C7 witness: the projects rule reaches the downstream handler. -/
theorem ServeHTTP_match_ok_witness :
    middleware.ExtractRule
      ((New ⟨"log"⟩ countingHandler projectsMatcher).ServeHTTP middleware ⟨1⟩
        postRequest 0).req = some projectsRule ∧
    ((New ⟨"log"⟩ countingHandler projectsMatcher).ServeHTTP middleware ⟨1⟩
        postRequest 0).state = 1001 :=
  have hw := ServeHTTP_match_ok (New ⟨"log"⟩ countingHandler projectsMatcher) ⟨1⟩ postRequest
    0 1 projectsRule (by decide) (by decide)
  ⟨hw.2.2.1, hw.2.2.2.2.2.2.2.2⟩

/-- C8: for a matched request whose body reads as the bytes `b` without
failure, the downstream handler is run, once and in the environment the
matcher left, on a request whose body stream is a buffer in memory that reads
as exactly `b` without failure, and the buffered copy held in the per-request
state of that request is `b` as well.  The stream the request came in with
has been read to its end by then: read again, it would give no byte. -/
theorem ServeHTTP_body_roundtrip {σ : Type} (m : Ware σ) (rw : ResponseWriter) (req : Request)
    (s : σ) (b : List Byte)
    (hm : (m.ruleMatcher.Match req s).1.2 = none)
    (hb : req.Body.ReadAll = (b, none)) :
    (m.ServeHTTP middleware rw req s).trace.filter Event.isNextCall
      = [Event.nextServeHTTP rw (m.ServeHTTP middleware rw req s).req] ∧
    (m.ServeHTTP middleware rw req s).req.Body.ReadAll = (b, none) ∧
    middleware.ExtractRequestBody (m.ServeHTTP middleware rw req s).req = some b ∧
    (m.ServeHTTP middleware rw req s).state
      = m.next.ServeHTTP rw (m.ServeHTTP middleware rw req s).req
          (m.ruleMatcher.Match req s).2 ∧
    (m.ServeHTTP middleware rw req s).req
      = { req with Body := bytes.NewBuffer b,
                   ctx := (CtxKey.ctxBodyKey, CtxValue.body b) ::
                     (CtxKey.ctxRuleKey, CtxValue.rule (m.ruleMatcher.Match req s).1.1) ::
                       req.ctx } ∧
    (m.ServeHTTP middleware rw req s).req.Body = bytes.NewBuffer b ∧
    (m.ServeHTTP middleware rw req s).req.Body.source = BodySource.buffer ∧
    req.Body.afterReadAll.ReadAll = ([], none) ∧
    (b ≠ [] → (m.ServeHTTP middleware rw req s).req.Body ≠ req.Body.afterReadAll) := by
  have hd : req.Body.data = b := by
    have := congrArg Prod.fst hb
    simpa [Body.ReadAll] using this
  have hf : req.Body.fail = none := by
    have := congrArg Prod.snd hb
    simpa [Body.ReadAll] using this
  rw [ServeHTTP_of_match_ok m rw req s hm hf]
  have hreq := middleware.EnrichRequestBody_EnrichRule req (m.ruleMatcher.Match req s).1.1 hf
  rw [hd] at hreq
  refine ⟨?_, ?_, ?_, rfl, ?_, ?_, ?_, ?_, ?_⟩
  · simp [Event.isNextCall, List.filter]
  · simp [hreq, Body.ReadAll, bytes.NewBuffer]
  · simp only [hreq, middleware.ExtractRequestBody, Request.Context]
    rw [Context.Value_cons_self]
  · exact hreq
  · simp [hreq]
  · simp [hreq, bytes.NewBuffer]
  · simp [Body.afterReadAll, Body.ReadAll, hf]
  · intro hne hcontra
    simp only [hreq] at hcontra
    have := congrArg Body.data hcontra
    simp [bytes.NewBuffer, Body.afterReadAll] at this
    exact hne this

/-- C8 witness: the three body bytes of a POST reach the downstream handler
(which ran: the state moved by a thousand) and the per-request state
unchanged, in a buffer that is not the stream the request came in with; a
handler that reads the body and the buffered copy finds three bytes in
each. -/
theorem ServeHTTP_body_roundtrip_witness :
    postRequest.Body.ReadAll = ([123, 125, 10], none) ∧
    ((New ⟨"log"⟩ countingHandler projectsMatcher).ServeHTTP middleware ⟨1⟩
        postRequest 0).req.Body.ReadAll = ([123, 125, 10], none) ∧
    middleware.ExtractRequestBody
      ((New ⟨"log"⟩ countingHandler projectsMatcher).ServeHTTP middleware ⟨1⟩
        postRequest 0).req = some [123, 125, 10] ∧
    ((New ⟨"log"⟩ countingHandler projectsMatcher).ServeHTTP middleware ⟨1⟩
        postRequest 0).state = 1001 ∧
    ((New ⟨"log"⟩ countingHandler projectsMatcher).ServeHTTP middleware ⟨1⟩
        postRequest 0).req.Body ≠ postRequest.Body ∧
    postRequest.Body.afterReadAll.ReadAll = ([], none) ∧
    ((New ⟨"log"⟩ readingHandler projectsMatcher).ServeHTTP middleware ⟨1⟩
        postRequest 0).state = 1034 :=
  have hw := ServeHTTP_body_roundtrip (New ⟨"log"⟩ countingHandler projectsMatcher) ⟨1⟩
    postRequest 0 [123, 125, 10] (by decide) (by decide)
  have hr := ServeHTTP_body_roundtrip (New ⟨"log"⟩ readingHandler projectsMatcher) ⟨1⟩
    postRequest 0 [123, 125, 10] (by decide) (by decide)
  ⟨by decide, hw.2.1, hw.2.2.1, hw.2.2.2.1.trans (by decide),
   by rw [hw.2.2.2.2.2.1]; decide, hw.2.2.2.2.2.2.2.1,
   by rw [hr.2.2.2.1, hr.2.2.2.2.1]; decide⟩

/-- C9: when the request matches a rule but body enrichment returns an error,
`ServeHTTP` writes status 500 and nothing else to the response writer and
stops: the downstream handler is never called, the environment is as the
matcher left it, and 500 is not the 400 of a match failure. -/
theorem ServeHTTP_body_error {σ : Type} (mw : Enrichment) (m : Ware σ) (rw : ResponseWriter)
    (req : Request) (s : σ) (e : GoError)
    (hm : (m.ruleMatcher.Match req s).1.2 = none)
    (he : (mw.EnrichRequestBody (mw.EnrichRule req (m.ruleMatcher.Match req s).1.1)).2
            = some e) :
    statusWrites rw (m.ServeHTTP mw rw req s).trace = [500] ∧
    (m.ServeHTTP mw rw req s).trace.filter Event.isNextCall = [] ∧
    (m.ServeHTTP mw rw req s).state = (m.ruleMatcher.Match req s).2 ∧
    (m.ServeHTTP mw rw req s).trace
      = [Event.ruleMatch req, Event.enrichRule req (m.ruleMatcher.Match req s).1.1,
         Event.enrichRequestBody (mw.EnrichRule req (m.ruleMatcher.Match req s).1.1),
         Event.logInfo "middleware: failed to enrich ctx with request body"
           [("err", LogValue.err e)],
         Event.writeHeader rw http.StatusInternalServerError] ∧
    http.StatusInternalServerError ≠ http.StatusBadRequest := by
  simp [Ware.ServeHTTP, hm, he, statusWrites, Event.isNextCall, http.StatusBadRequest,
    http.StatusInternalServerError]

/-- C9 witness: a body stream that breaks after one byte ends in 500, and the
downstream handler, which would have moved the state by a thousand, did not
run. -/
theorem ServeHTTP_body_error_witness :
    brokenBodyRequest.Body.ReadAll = ([123], some ⟨"unexpected EOF"⟩) ∧
    statusWrites ⟨1⟩
      ((New ⟨"log"⟩ countingHandler projectsMatcher).ServeHTTP middleware ⟨1⟩
        brokenBodyRequest 0).trace = [500] ∧
    ((New ⟨"log"⟩ countingHandler projectsMatcher).ServeHTTP middleware ⟨1⟩
        brokenBodyRequest 0).state = 1 :=
  have hw := ServeHTTP_body_error middleware (New ⟨"log"⟩ countingHandler projectsMatcher) ⟨1⟩
    brokenBodyRequest 0 ⟨"unexpected EOF"⟩ (by decide) (by decide)
  ⟨by decide, hw.1, hw.2.2.1⟩

/-! ## The frame of the transport wrapper -/

theorem RoundTrip_sent_eq_outbound {σ : Type} (net : Net σ) (t : h2cTransportWrapper σ)
    (req : Request) (s : σ) (sent : Request)
    (hs : Event.httpRoundTrip sent ∈ (t.RoundTrip net req s).trace ∨
          Event.grpcRoundTrip sent ∈ (t.RoundTrip net req s).trace) :
    sent = req.outbound ∧ (t.RoundTrip net req s).req = req.outbound := by
  cases he : assertError (req.Context.Value CtxKey.CtxRequestErrorKey) with
  | some err =>
    simp [h2cTransportWrapper.RoundTrip, he] at hs
  | none =>
    by_cases hg : req.Header.Get "Content-Type" = "application/grpc"
    · rw [RoundTrip_of_grpc net t req s he hg] at hs ⊢
      obtain ⟨dbg, fields, tail, hd, htr, htail⟩ := afterPool_trace t req
        (Event.grpcRoundTrip req.outbound) (net.grpcRoundTrip t.grpcTransport req.outbound s)
      rw [htr, hd] at hs
      refine ⟨?_, ?_⟩
      · rcases htail with ht | ht <;> simpa [ht] using hs
      · unfold afterPool
        split <;> rfl
    · rw [RoundTrip_of_not_grpc net t req s he hg] at hs ⊢
      obtain ⟨dbg, fields, tail, hd, htr, htail⟩ := afterPool_trace t req
        (Event.httpRoundTrip req.outbound) (net.httpRoundTrip t.httpTransport req.outbound s)
      rw [htr, hd] at hs
      refine ⟨?_, ?_⟩
      · rcases htail with ht | ht <;> simpa [ht] using hs
      · unfold afterPool
        split <;> rfl

/-- C11: `RoundTrip` changes nothing on the request but the `Accept-Encoding`
header.  Every request it hands to a pool has the method, URL, protocol, body
and per-request state of the request it was given, and the same values under
every header key other than `Accept-Encoding`, `Content-Type` among them; that
request is also the one the call leaves behind.  When per-request state holds
a forwarding error, the request is left exactly as it was given, its
`Accept-Encoding` values included. -/
theorem RoundTrip_frame {σ : Type} (net : Net σ) (t : h2cTransportWrapper σ)
    (req : Request) (s : σ) :
    (∀ sent : Request,
      (Event.httpRoundTrip sent ∈ (t.RoundTrip net req s).trace ∨
       Event.grpcRoundTrip sent ∈ (t.RoundTrip net req s).trace) →
      sent.Method = req.Method ∧ sent.URL = req.URL ∧ sent.Proto = req.Proto ∧
      sent.Body = req.Body ∧ sent.ctx = req.ctx ∧
      (∀ key : String, key ≠ "Accept-Encoding" →
        sent.Header.lookup key = req.Header.lookup key ∧
        sent.Header.Get key = req.Header.Get key ∧
        sent.Header.Values key = req.Header.Values key) ∧
      sent.Header.Get "Content-Type" = req.Header.Get "Content-Type" ∧
      (t.RoundTrip net req s).req = sent) ∧
    (∀ e : GoError, req.Context.Value CtxKey.CtxRequestErrorKey = some (CtxValue.error e) →
      (t.RoundTrip net req s).req = req ∧
      (t.RoundTrip net req s).req.Header.Values "Accept-Encoding"
        = req.Header.Values "Accept-Encoding") := by
  refine ⟨?_, ?_⟩
  · intro sent hs
    obtain ⟨hout, hreq⟩ := RoundTrip_sent_eq_outbound net t req s sent hs
    rw [hreq, hout]
    refine ⟨rfl, rfl, rfl, rfl, rfl, ?_, req.outbound_contentType, rfl⟩
    intro key hk
    have hl : req.outbound.Header.lookup key = req.Header.lookup key :=
      Header.lookup_Del_of_ne req.Header "Accept-Encoding" key hk
    exact ⟨hl, Header.Get_Del_of_ne req.Header "Accept-Encoding" key hk,
      by simp [Header.Values, hl]⟩
  · intro e he
    have hr : (t.RoundTrip net req s).req = req := by
      simp [h2cTransportWrapper.RoundTrip, he, assertError]
    exact ⟨hr, by rw [hr]⟩

/-- C11 witness: the JSON request reaches the general pool with its content
type, URL and body intact, and the unroutable request keeps its
`Accept-Encoding` value. -/
theorem RoundTrip_frame_witness :
    Event.httpRoundTrip jsonRequest.outbound
      ∈ ((NewH2cRoundTripper ⟨"log"⟩ stampHook).RoundTrip demoNet jsonRequest 0).trace ∧
    jsonRequest.outbound.URL = jsonRequest.URL ∧
    jsonRequest.outbound.Body = jsonRequest.Body ∧
    jsonRequest.outbound.Header.Get "Content-Type" = "application/json" ∧
    unroutableRequest.Context.Value CtxKey.CtxRequestErrorKey
      = some (CtxValue.error ⟨"unknown host"⟩) ∧
    ((NewH2cRoundTripper ⟨"log"⟩ stampHook).RoundTrip demoNet unroutableRequest 0).req
      = unroutableRequest ∧
    ((NewH2cRoundTripper ⟨"log"⟩ stampHook).RoundTrip demoNet unroutableRequest
        0).req.Header.Values "Accept-Encoding" = ["gzip"] :=
  have h1 := (RoundTrip_frame demoNet (NewH2cRoundTripper ⟨"log"⟩ stampHook) jsonRequest 0).1
    jsonRequest.outbound (Or.inl (by decide))
  have h2 := (RoundTrip_frame demoNet (NewH2cRoundTripper ⟨"log"⟩ stampHook)
    unroutableRequest 0).2 ⟨"unknown host"⟩ (by decide)
  ⟨by decide, h1.2.1, h1.2.2.2.1, h1.2.2.2.2.2.2.1.trans (by decide), by decide, h2.1,
   h2.2.trans (by decide)⟩

/-! ## The project service -/

/-- C13: `Service.Create` runs `FetchCurrentUser`, `Store.CreateProject`,
`AddAdminToProject` and `AddProjectToOrg` in this order.  The store is called
on a project that carries the name, slug, metadata and organization of the
input and a zero id and zero timestamps.  When a step returns an error,
`Create` returns the zero project with exactly that error and the trace ends
with that step; when all four succeed it returns the project the store
returned, with a nil error. -/
theorem Create_steps {σ : Type} (s : project.Service σ) (ctx : Context)
    (p : model.Project) (st : σ) :
    (project.Service.storeArgument p).Name = p.Name ∧
    (project.Service.storeArgument p).Slug = p.Slug ∧
    (project.Service.storeArgument p).Metadata = p.Metadata ∧
    (project.Service.storeArgument p).Organization = p.Organization ∧
    (project.Service.storeArgument p).Id = "" ∧
    (project.Service.storeArgument p).CreatedAt = 0 ∧
    (project.Service.storeArgument p).UpdatedAt = 0 ∧
    (∀ (c : Context) (arg : model.Project),
      project.Call.CreateProject c arg ∈ (s.Create ctx p st).trace →
        c = ctx ∧ arg = project.Service.storeArgument p) ∧
    (∀ e : Err, (s.Permissions.FetchCurrentUser ctx st).1.2 = some e →
      (s.Create ctx p st).result = model.Project.zero ∧
      (s.Create ctx p st).err = some e ∧
      (s.Create ctx p st).trace = [project.Call.FetchCurrentUser ctx] ∧
      (s.Create ctx p st).state = (s.Permissions.FetchCurrentUser ctx st).2) ∧
    (∀ (user : model.User) (st1 : σ), s.Permissions.FetchCurrentUser ctx st = ((user, none), st1) →
      (∀ e : Err,
        (s.Store.CreateProject ctx (project.Service.storeArgument p) st1).1.2 = some e →
        (s.Create ctx p st).result = model.Project.zero ∧
        (s.Create ctx p st).err = some e ∧
        (s.Create ctx p st).trace
          = [project.Call.FetchCurrentUser ctx,
             project.Call.CreateProject ctx (project.Service.storeArgument p)] ∧
        (s.Create ctx p st).state
          = (s.Store.CreateProject ctx (project.Service.storeArgument p) st1).2) ∧
      (∀ (newProject : model.Project) (st2 : σ),
        s.Store.CreateProject ctx (project.Service.storeArgument p) st1
          = ((newProject, none), st2) →
        (∀ (e : Err) (st3 : σ),
          s.Permissions.AddAdminToProject ctx user newProject st2 = (some e, st3) →
          (s.Create ctx p st).result = model.Project.zero ∧
          (s.Create ctx p st).err = some e ∧
          (s.Create ctx p st).trace
            = [project.Call.FetchCurrentUser ctx,
               project.Call.CreateProject ctx (project.Service.storeArgument p),
               project.Call.AddAdminToProject ctx user newProject] ∧
          (s.Create ctx p st).state = st3) ∧
        (∀ st3 : σ, s.Permissions.AddAdminToProject ctx user newProject st2 = (none, st3) →
          (∀ (e : Err) (st4 : σ),
            s.Permissions.AddProjectToOrg ctx newProject p.Organization st3 = (some e, st4) →
            (s.Create ctx p st).result = model.Project.zero ∧
            (s.Create ctx p st).err = some e ∧
            (s.Create ctx p st).trace
              = [project.Call.FetchCurrentUser ctx,
                 project.Call.CreateProject ctx (project.Service.storeArgument p),
                 project.Call.AddAdminToProject ctx user newProject,
                 project.Call.AddProjectToOrg ctx newProject p.Organization] ∧
            (s.Create ctx p st).state = st4) ∧
          (∀ st4 : σ,
            s.Permissions.AddProjectToOrg ctx newProject p.Organization st3 = (none, st4) →
            (s.Create ctx p st).result = newProject ∧
            (s.Create ctx p st).err = none ∧
            (s.Create ctx p st).trace
              = [project.Call.FetchCurrentUser ctx,
                 project.Call.CreateProject ctx (project.Service.storeArgument p),
                 project.Call.AddAdminToProject ctx user newProject,
                 project.Call.AddProjectToOrg ctx newProject p.Organization] ∧
            (s.Create ctx p st).state = st4)))) := by
  refine ⟨rfl, rfl, rfl, rfl, rfl, rfl, rfl, ?_, ?_, ?_⟩
  · intro c arg hmem
    unfold project.Service.Create at hmem
    simp only [] at hmem
    repeat' split at hmem
    all_goals
      simp only [List.mem_cons, List.mem_singleton, List.not_mem_nil, or_false,
        project.Call.CreateProject.injEq, false_or, reduceCtorEq] at hmem
    all_goals exact ⟨hmem.1, hmem.2.trans rfl⟩
  · intro e he
    simp [project.Service.Create, he]
  · intro user st1 hf
    refine ⟨?_, ?_⟩
    · intro e hc
      simp only [project.Service.storeArgument] at hc
      simp [project.Service.Create, hf, hc, project.Service.storeArgument]
    · intro newProject st2 hc
      simp only [project.Service.storeArgument] at hc
      refine ⟨?_, ?_⟩
      · intro e st3 ha
        simp [project.Service.Create, hf, hc, ha, project.Service.storeArgument]
      · intro st3 ha
        refine ⟨?_, ?_⟩
        · intro e st4 ho
          simp [project.Service.Create, hf, hc, ha, ho, project.Service.storeArgument]
        · intro st4 ho
          simp [project.Service.Create, hf, hc, ha, ho, project.Service.storeArgument]

/-- C13 witness: without a current user the store is never called (the state
moves by one, not by a hundred), and with all four steps passing the caller
gets the project as the store stamped it, the id the client chose being
dropped on the way in. -/
theorem Create_steps_witness :
    (anonymousPermissions.FetchCurrentUser [] 0).1.2 = some emptyEmailID ∧
    (project.Service.Create ⟨stampingStore, anonymousPermissions⟩ [] incomingProject 0).result
      = model.Project.zero ∧
    (project.Service.Create ⟨stampingStore, anonymousPermissions⟩ [] incomingProject 0).err
      = some emptyEmailID ∧
    (project.Service.Create ⟨stampingStore, anonymousPermissions⟩ [] incomingProject 0).trace
      = [project.Call.FetchCurrentUser []] ∧
    (project.Service.Create ⟨stampingStore, anonymousPermissions⟩ [] incomingProject 0).state
      = 1 ∧
    (project.Service.Create ⟨stampingStore, grantingPermissions⟩ [] incomingProject 0).result
      = { Id := "project-1", Name := "Shield", Slug := "shield",
          Organization := { Id := "org-1" }, Metadata := [("team", "platform")],
          CreatedAt := 7, UpdatedAt := 7 } ∧
    (project.Service.Create ⟨stampingStore, grantingPermissions⟩ [] incomingProject 0).err
      = none ∧
    (project.Service.Create ⟨stampingStore, grantingPermissions⟩ [] incomingProject 0).state
      = 103 :=
  have h1 := (Create_steps ⟨stampingStore, anonymousPermissions⟩ [] incomingProject 0).2.2.2.2.2.2.2.2.1
    emptyEmailID (by decide)
  have h2 := ((((Create_steps ⟨stampingStore, grantingPermissions⟩ [] incomingProject
    0).2.2.2.2.2.2.2.2.2 ⟨"user-1"⟩ 1 (by decide)).2
      { Id := "project-1", Name := "Shield", Slug := "shield",
        Organization := { Id := "org-1" }, Metadata := [("team", "platform")],
        CreatedAt := 7, UpdatedAt := 7 } 101 (by decide)).2 102 (by decide)).2 103 (by decide)
  ⟨by decide, h1.1, h1.2.1, h1.2.2.1, h1.2.2.2, h2.1, h2.2.1, h2.2.2.2⟩

/-! ## The error classification of the store -/

theorem sliceTo_of_short (b : List Nat) (high : Nat) (h : b.length < high) :
    sliceTo b high = Run.sliceOutOfRange high b.length := by
  simp [sliceTo, Nat.not_le.mpr h]

theorem sliceTo_of_long (b : List Nat) (high : Nat) (h : high ≤ b.length) :
    sliceTo b high = Run.returned (b.take high) := by
  simp [sliceTo, h]

theorem GetProject_of_short_message (v : postgres.Errs) (js : JSON) (s : postgres.Store)
    (ctx : Context) (id : String) (e : Err)
    (hg : (s.DB.GetProject ctx postgres.getProjectsQuery [SqlArg.str id]).2 = some e)
    (hn : e.Is sql.ErrNoRows = false) (hl : (goBytes e.Error).length < 38) :
    s.GetProject v js ctx id = Run.sliceOutOfRange 38 (goBytes e.Error).length := by
  simp [postgres.Store.GetProject, hg, errors.Is, hn, sliceTo_of_short _ _ hl]

theorem GetResource_of_short_message (v : postgres.Errs) (s : postgres.Store)
    (ctx : Context) (id : String) (e : Err)
    (hg : (s.DB.GetResource ctx postgres.getResourcesQuery [SqlArg.str id]).2 = some e)
    (hn : e.Is sql.ErrNoRows = false) (hl : (goBytes e.Error).length < 38) :
    s.GetResource v ctx id = Run.sliceOutOfRange 38 (goBytes e.Error).length := by
  simp [postgres.Store.GetResource, hg, errors.Is, hn, sliceTo_of_short _ _ hl]

theorem GetProject_of_long_message (v : postgres.Errs) (js : JSON) (s : postgres.Store)
    (ctx : Context) (id : String) (e : Err)
    (hg : (s.DB.GetProject ctx postgres.getProjectsQuery [SqlArg.str id]).2 = some e)
    (hn : e.Is sql.ErrNoRows = false) (hl : 38 ≤ (goBytes e.Error).length) :
    s.GetProject v js ctx id
      = Run.returned (model.Project.zero,
          some (if (goBytes e.Error).take 38 = goBytes "pq: invalid input syntax for type uuid"
                then project.InvalidUUID else fmt.Errorf_w_s v.dbErr e)) := by
  simp only [postgres.Store.GetProject, hg, errors.Is, hn, sliceTo_of_long _ _ hl,
    Bool.false_eq_true, if_false]
  by_cases hc : (goBytes e.Error).take 38 = goBytes "pq: invalid input syntax for type uuid"
  · simp only [hc, if_true]
  · simp only [hc, if_false]

theorem GetProject_of_no_rows (v : postgres.Errs) (js : JSON) (s : postgres.Store)
    (ctx : Context) (id : String) (e : Err)
    (hg : (s.DB.GetProject ctx postgres.getProjectsQuery [SqlArg.str id]).2 = some e)
    (hn : e.Is sql.ErrNoRows = true) :
    s.GetProject v js ctx id
      = Run.returned (model.Project.zero, some project.ProjectDoesntExist) := by
  simp [postgres.Store.GetProject, hg, errors.Is, hn]

/-- C12: on a database error that is not `sql.ErrNoRows` and whose message is
shorter than 38 bytes, here the 25 bytes of `context deadline exceeded`, the
slice `err.Error()[0:38]` is out of range: `GetProject`, `UpdateProject`,
`GetResource` and `UpdateResource` all stop on the run-time error instead of
returning an error that wraps `dbErr`.  The other branches do what they are
meant to: the prefix of the database gives `InvalidUUID`, and `sql.ErrNoRows`,
bare or wrapped, gives the does-not-exist error; an error that only has the
text of `sql.ErrNoRows` is not that variable, and its 26 bytes are out of
range as well. -/
theorem Store_classification_short_message :
    deadlineExceeded.Is sql.ErrNoRows = false ∧
    (goBytes deadlineExceeded.Error).length = 25 ∧
    postgres.Store.GetProject demoErrs demoJSON ⟨failingDB deadlineExceeded⟩ [] "project-1"
      = Run.sliceOutOfRange 38 25 ∧
    postgres.Store.UpdateProject demoErrs demoJSON ⟨failingDB deadlineExceeded⟩ []
        incomingProject
      = Run.sliceOutOfRange 38 25 ∧
    postgres.Store.GetResource demoErrs ⟨failingDB deadlineExceeded⟩ [] "resource-1"
      = Run.sliceOutOfRange 38 25 ∧
    postgres.Store.UpdateResource demoErrs ⟨failingDB deadlineExceeded⟩ [] "resource-1"
        model.Resource.zero
      = Run.sliceOutOfRange 38 25 ∧
    postgres.Store.GetProject demoErrs demoJSON ⟨failingDB invalidUUIDSyntax⟩ [] "42"
      = Run.returned (model.Project.zero, some project.InvalidUUID) ∧
    postgres.Store.GetProject demoErrs demoJSON ⟨failingDB sql.ErrNoRows⟩ [] "project-1"
      = Run.returned (model.Project.zero, some project.ProjectDoesntExist) ∧
    postgres.Store.GetProject demoErrs demoJSON ⟨failingDB wrappedNoRows⟩ [] "project-1"
      = Run.returned (model.Project.zero, some project.ProjectDoesntExist) ∧
    lookalikeNoRows.Error = sql.ErrNoRows.Error ∧
    lookalikeNoRows.Is sql.ErrNoRows = false ∧
    postgres.Store.GetProject demoErrs demoJSON ⟨failingDB lookalikeNoRows⟩ [] "project-1"
      = Run.sliceOutOfRange 38 26 := by
  refine ⟨by decide, by decide, by decide, by decide, by decide, by decide, by decide,
    by decide, by decide, by decide, by decide, by decide⟩

end Shield
